import Mathlib

/-!
Verification of the apollo-parser core: lexer, parser driver, green-tree
builder and typed views. The parser driver (`crates/apollo-parser/src/parser/mod.rs`)
and the generated typed views (`crates/apollo-parser/src/ast/generated/nodes.rs`)
are embedded from the source; the lexer, the grammar productions and the
green-tree builder are not part of the source tree and are modelled from the
specification (sections 4.1, 4.3 and 4.4), as marked on each definition.

Source text is modelled as `List Char`; machine strings (token texts) are
`List Char` as well, so that concatenation facts are ordinary list lemmas.
-/

/-- Source and token text: a list of characters (bytes of the input). -/
abbrev Str := List Char

/-- Token kinds produced by the lexer, per spec section 4.1: trivia
(whitespace, comment), identifier, literals and one punctuator kind per
literal punctuator (section 3 includes `&` in the punctuator set). -/
inductive TokenKind where
  | whitespace
  | comment
  | ident
  | int
  | float
  | string
  | blockString
  | bang
  | dollar
  | lParen
  | rParen
  | spread
  | colon
  | eq
  | atSym
  | lBrack
  | rBrack
  | lCurly
  | pipe
  | rCurly
  | amp
deriving DecidableEq, Repr

/-- A lexed token: kind, verbatim text slice and byte offset from the start
of the input (spec section 3, `Token`). -/
structure Token where
  kind : TokenKind
  text : Str
  offset : Nat
deriving DecidableEq, Repr

/-- A diagnostic: `{ message, offset, length }` (spec sections 3 and 4.5).
Lexical and syntactic errors share this representation. -/
structure Error where
  message : String
  offset : Nat
  length : Nat
deriving DecidableEq, Repr

/-- The flat `SyntaxKind` enumeration: every nonterminal tag of
`ast/generated/nodes.rs` (including the abstract sum tags
`EXECUTABLE_DEFINITION`, `TYPE_SYSTEM_DEFINITION`, `TYPE_SYSTEM_EXTENSION`,
`TYPE_DEFINITION`, `TYPE_EXTENSION` that `Definition::cast` and friends
match on) together with the terminal kinds of spec section 3: trivia,
identifier, literals, punctuators and contextual keywords. -/
inductive SyntaxKind where
  -- nonterminal tags (concrete productions)
  | NAME
  | DOCUMENT
  | OPERATION_DEFINITION
  | FRAGMENT_DEFINITION
  | OPERATION_TYPE
  | VARIABLE_DEFINITIONS
  | DIRECTIVES
  | SELECTION_SET
  | FIELD
  | FRAGMENT_SPREAD
  | INLINE_FRAGMENT
  | ALIAS
  | ARGUMENTS
  | ARGUMENT
  | FRAGMENT_NAME
  | TYPE_CONDITION
  | NAMED_TYPE
  | VARIABLE
  | STRING_VALUE
  | FLOAT_VALUE
  | INT_VALUE
  | BOOLEAN_VALUE
  | NULL_VALUE
  | ENUM_VALUE
  | LIST_VALUE
  | OBJECT_VALUE
  | OBJECT_FIELD
  | VARIABLE_DEFINITION
  | DEFAULT_VALUE
  | LIST_TYPE
  | NON_NULL_TYPE
  | DIRECTIVE
  | SCHEMA_DEFINITION
  | DIRECTIVE_DEFINITION
  | SCHEMA_EXTENSION
  | OPERATION_TYPE_DEFINITION
  | DESCRIPTION
  | SCALAR_TYPE_DEFINITION
  | OBJECT_TYPE_DEFINITION
  | INTERFACE_TYPE_DEFINITION
  | UNION_TYPE_DEFINITION
  | ENUM_TYPE_DEFINITION
  | INPUT_OBJECT_TYPE_DEFINITION
  | SCALAR_TYPE_EXTENSION
  | OBJECT_TYPE_EXTENSION
  | INTERFACE_TYPE_EXTENSION
  | UNION_TYPE_EXTENSION
  | ENUM_TYPE_EXTENSION
  | INPUT_OBJECT_TYPE_EXTENSION
  | IMPLEMENTS_INTERFACES
  | FIELDS_DEFINITION
  | FIELD_DEFINITION
  | ARGUMENTS_DEFINITION
  | INPUT_VALUE_DEFINITION
  | UNION_MEMBER_TYPES
  | ENUM_VALUES_DEFINITION
  | ENUM_VALUE_DEFINITION
  | INPUT_FIELDS_DEFINITION
  | DIRECTIVE_LOCATIONS
  | DIRECTIVE_LOCATION
  | EXECUTABLE_DIRECTIVE_LOCATION
  | TYPE_SYSTEM_DIRECTIVE_LOCATION
  -- abstract sum tags (used by the sum views in nodes.rs)
  | EXECUTABLE_DEFINITION
  | TYPE_SYSTEM_DEFINITION
  | TYPE_SYSTEM_EXTENSION
  | TYPE_DEFINITION
  | TYPE_EXTENSION
  -- terminal kinds: trivia, identifier, literals
  | WHITESPACE
  | COMMENT
  | IDENT
  | STRING
  | INT
  | FLOAT
  -- terminal kinds: punctuators
  | BANG
  | DOLLAR
  | L_PAREN
  | R_PAREN
  | SPREAD
  | COLON
  | EQ
  | AT
  | L_BRACK
  | R_BRACK
  | L_CURLY
  | PIPE
  | R_CURLY
  | AMP
  -- terminal kinds: contextual keywords (classified by the parser)
  | query_KW
  | mutation_KW
  | subscription_KW
  | fragment_KW
  | on_KW
  | schema_KW
  | scalar_KW
  | type_KW
  | interface_KW
  | union_KW
  | enum_KW
  | input_KW
  | extend_KW
  | implements_KW
  | directive_KW
  | true_KW
  | false_KW
  | null_KW
  | LOCATION_KW
deriving DecidableEq, Repr

open SyntaxKind

/-- The green tree (spec section 3): internal nodes carry a kind and an
ordered child sequence; terminal nodes carry a kind and their verbatim
text. -/
inductive Green where
  | node (kind : SyntaxKind) (children : List Green)
  | leaf (kind : SyntaxKind) (text : Str)

/-- Kind of a green node or token. -/
def Green.kindOf : Green → SyntaxKind
  | .node k _ => k
  | .leaf k _ => k

/-- Children of a green element; terminals have none. -/
def Green.childrenOf : Green → List Green
  | .node _ cs => cs
  | .leaf _ _ => []

mutual
/-- Concatenation of the terminal texts of a green subtree, left to right. -/
def Green.termText : Green → Str
  | .node _ cs => Green.termTextList cs
  | .leaf _ t => t

/-- Concatenation of the terminal texts of a forest, left to right. -/
def Green.termTextList : List Green → Str
  | [] => []
  | g :: gs => Green.termText g ++ Green.termTextList gs
end

/-- Builder events (spec section 4.4): `start_node(kind)`,
`token(kind, text)` and `finish_node`, recorded in emission order. -/
inductive Event where
  | startNode (kind : SyntaxKind)
  | token (kind : SyntaxKind) (text : Str)
  | finishNode
deriving DecidableEq, Repr

/-- Parser driver state (spec section 4.2, `parser/mod.rs` lines 41-50):
the remaining token buffer, the builder's accumulated event trace and the
error list. The Rust driver stores the token `Vec` in reverse so that the
next token is the vector's last element; here the list holds the same
tokens with the next token at the head, so `Vec::pop`/`Vec::last` become
head operations. `endOffset` records the input length, used as the offset
of diagnostics reported at end of input. -/
structure PState where
  tokens : List Token
  events : List Event
  errors : List Error
  endOffset : Nat
deriving Repr

namespace Parser

/-- `Parser::peek` (`mod.rs` line 133): kind of the next unconsumed token,
without mutation (`tokens.last()` on the reversed vector = head here). -/
def peek (p : PState) : Option TokenKind :=
  p.tokens.head?.map (·.kind)

/-- `Parser::peek_n` (`mod.rs` line 137): kind of the nth upcoming token,
1-based. The source indexes the reversed vector at `len - n`, i.e. the nth
element from the vector's tail, which is index `n - 1` of this list. -/
def peek_n (p : PState) (n : Nat) : Option TokenKind :=
  (p.tokens.get? (n - 1)).map (·.kind)

/-- `Parser::peek_data` (`mod.rs` line 143): text of the next token. -/
def peek_data (p : PState) : Option Str :=
  p.tokens.head?.map (·.text)

/-- `Parser::peek_data_n` (`mod.rs` line 147): text of the nth upcoming
token, 1-based. -/
def peek_data_n (p : PState) (n : Nat) : Option Str :=
  (p.tokens.get? (n - 1)).map (·.text)

/-- `Parser::pop` (`mod.rs` line 115): remove and return the next token.
The source unwraps (`self.tokens.pop().unwrap()`) and panics on an empty
buffer; `none` models the panic. -/
def pop (p : PState) : Option (Token × PState) :=
  match p.tokens with
  | [] => none
  | t :: ts => some (t, { p with tokens := ts })

/-- `Parser::bump` (`mod.rs` line 109): pop the next token and emit it to
the builder under the caller-chosen kind. Panics (modelled by `none`) on
an empty buffer. -/
def bump (kind : SyntaxKind) (p : PState) : Option PState :=
  match p.tokens with
  | [] => none
  | t :: ts =>
      some { p with tokens := ts, events := p.events ++ [Event.token kind t.text] }

/-- `Parser::push_err` (`mod.rs` line 124): append a diagnostic. -/
def push_err (e : Error) (p : PState) : PState :=
  { p with errors := p.errors ++ [e] }

/-- `Parser::start_node` (`mod.rs` line 128): open an internal node; the
builder records the event, and the returned `NodeGuard` later closes it. -/
def start_node (kind : SyntaxKind) (p : PState) : PState :=
  { p with events := p.events ++ [Event.startNode kind] }

/-- `NodeGuard::finish_node` / `Drop` (`mod.rs` lines 164-173): close the
most recently opened node. -/
def finish_node (p : PState) : PState :=
  { p with events := p.events ++ [Event.finishNode] }

end Parser

/-! ## Lexer

Modelled from the spec: the lexer itself (`crates/apollo-parser/src/lexer`)
is not among the provided sources; sections 3 and 4.1 of the spec fix its
contract, and every definition below follows those sections. The lexer
classifies each position into exactly one token or error, never
backtracks across token boundaries, and resumes after the bad span on
malformed input. -/

/-- Whitespace characters per spec 4.1: space, tab, carriage return, line
feed, or comma (commas are insignificant separators). -/
def isWsChar (c : Char) : Bool :=
  c == ' ' || c == '\t' || c == '\r' || c == '\n' || c == ','

/-- ASCII decimal digit. -/
def isDigitCh (c : Char) : Bool :=
  '0' ≤ c && c ≤ '9'

/-- ASCII letter. -/
def isLetterCh (c : Char) : Bool :=
  ('a' ≤ c && c ≤ 'z') || ('A' ≤ c && c ≤ 'Z')

/-- First character of an identifier: `[A-Za-z_]`. -/
def isNameStart (c : Char) : Bool :=
  isLetterCh c || c == '_'

/-- Continuation character of an identifier: `[A-Za-z0-9_]`. -/
def isNameChar (c : Char) : Bool :=
  isNameStart c || isDigitCh c

/-- ASCII hexadecimal digit (for `\uXXXX` escapes). -/
def isHexCh (c : Char) : Bool :=
  isDigitCh c || ('a' ≤ c && c ≤ 'f') || ('A' ≤ c && c ≤ 'F')

/-- Single-character punctuators per spec sections 3 and 4.1. -/
def punctKind (c : Char) : Option TokenKind :=
  match c with
  | '!' => some .bang
  | '$' => some .dollar
  | '(' => some .lParen
  | ')' => some .rParen
  | ':' => some .colon
  | '=' => some .eq
  | '@' => some .atSym
  | '[' => some .lBrack
  | ']' => some .rBrack
  | '{' => some .lCurly
  | '|' => some .pipe
  | '}' => some .rCurly
  | '&' => some .amp
  | _ => none

/-- One unit of lexer output: a token or a lexical error covering a span
(spec 4.1 contract: `tokens(source) → ordered sequence of
(Token | LexicalError)`). -/
inductive LexUnit where
  | tok (t : Token)
  | err (text : Str) (offset : Nat) (message : String)
deriving DecidableEq, Repr

/-- Verbatim text covered by one lexer output unit. -/
def unitText : LexUnit → Str
  | .tok t => t.text
  | .err t _ _ => t

/-- Concatenated text of a run of lexer output units. -/
def unitsText (us : List LexUnit) : Str :=
  us.foldr (fun u acc => unitText u ++ acc) []

/-- Scan result for a numeric literal: consumed length, int/float kind,
and the error, if any. -/
structure NumScan where
  len : Nat
  kind : TokenKind
  err : Option String
deriving Repr

/-- Modelled from the spec: exponent part scan, `e`/`E` already seen;
optional sign then digits; at least one digit must be present. Returns
length consumed including the `e`/`E`, and whether digits were found. -/
def expScan (r : Str) : Nat × Bool :=
  let s2 : Nat := match r with
    | '+' :: _ => 1
    | '-' :: _ => 1
    | _ => 0
  let ed := ((r.drop s2).takeWhile isDigitCh).length
  (1 + s2 + ed, !(ed == 0))

/-- Modelled from the spec (4.1 *Int*, *Float*): the body of a numeric
literal after an optional sign of length `s`. `0` or a nonzero digit
followed by digits; a trailing `.`-fraction and/or `e`/`E`-exponent
promotes the span to a float; a numeric span directly followed by `.`, a
letter, `_` or a digit is a lexical error covering the combined span. -/
def numBody (s : Nat) (l1 : Str) : NumScan :=
  let d := (l1.takeWhile isDigitCh).length
  if d == 0 then
    { len := s, kind := .int, err := some "expected digit after minus sign" }
  else
    let l2 := l1.drop d
    let fr : Nat × Bool := match l2 with
      | '.' :: r => (1 + (r.takeWhile isDigitCh).length, !((r.takeWhile isDigitCh).length == 0))
      | _ => (0, true)
    let l3 := l2.drop fr.1
    let ex : Nat × Bool := match l3 with
      | 'e' :: r => expScan r
      | 'E' :: r => expScan r
      | _ => (0, true)
    let l4 := l3.drop ex.1
    let t := (l4.takeWhile (fun c => isNameChar c || c == '.')).length
    let isFl : Bool := !(fr.1 == 0) || !(ex.1 == 0)
    let kd : TokenKind := if isFl then .float else .int
    let leadZero : Bool := match l1 with
      | '0' :: c2 :: _ => isDigitCh c2
      | _ => false
    if !(t == 0) then
      { len := s + d + fr.1 + ex.1 + t, kind := kd,
        err := some "unexpected character in numeric literal" }
    else if !(fr.2 && ex.2) then
      { len := s + d + fr.1 + ex.1, kind := .float,
        err := some "expected digit in float literal" }
    else if leadZero then
      { len := s + d + fr.1 + ex.1, kind := .int,
        err := some "unexpected leading zero in numeric literal" }
    else
      { len := s + d + fr.1 + ex.1, kind := kd, err := none }

/-- Modelled from the spec (4.1 *Int*, *Float*): a numeric literal is an
optional `-` followed by the numeric body. -/
def numScan (l : Str) : NumScan :=
  if l.head? == some '-' then numBody 1 (l.drop 1) else numBody 0 l

/-- Modelled from the spec (4.1 *String*): scan after the opening `"` up
to the closing `"` on the same line; recognized escapes
`\" \\ \/ \b \f \n \r \t \uXXXX`; unterminated string, line break inside,
or invalid escape yields an error. Returns the consumed length after the
opening quote and the error, if any. -/
def strScan (l : Str) : Nat × Option String :=
  match l with
  | [] => (0, some "unterminated string value")
  | '"' :: _ => (1, none)
  | '\n' :: _ => (0, some "unterminated string value")
  | '\\' :: [] => (1, some "unterminated string value")
  | '\\' :: e :: r =>
      if e == '"' || e == '\\' || e == '/' || e == 'b' || e == 'f' ||
         e == 'n' || e == 'r' || e == 't' then
        let m := strScan r
        (2 + m.1, m.2)
      else if e == 'u' then
        if (r.take 4).length == 4 && (r.take 4).all isHexCh then
          let m := strScan (r.drop 4)
          (6 + m.1, m.2)
        else
          (2, some "invalid escape sequence")
      else
        (2, some "invalid escape sequence")
  | _ :: r =>
      let m := strScan r
      (1 + m.1, m.2)
termination_by l.length
decreasing_by
  all_goals simp [List.length_drop]
  all_goals omega

/-- Modelled from the spec (4.1 *Block string*): scan after the opening
`"""` up to the closing `"""`; `\"""` is the sole escape; block strings
may span lines. Returns the consumed length after the opening quotes and
the error, if any. -/
def blockScan (l : Str) : Nat × Option String :=
  match l with
  | [] => (0, some "unterminated block string value")
  | '"' :: '"' :: '"' :: _ => (3, none)
  | '\\' :: '"' :: '"' :: '"' :: r =>
      let m := blockScan r
      (4 + m.1, m.2)
  | _ :: r =>
      let m := blockScan r
      (1 + m.1, m.2)
termination_by l.length
decreasing_by
  all_goals simp
  all_goals omega

/-- Modelled from the spec (4.1): lex one numeric literal beginning at
`c`; a scan error becomes a `LexUnit.err` over the bad span. -/
def numUnit (off : Nat) (c : Char) (cs : Str) : LexUnit × Nat :=
  let r := numScan (c :: cs)
  match r.err with
  | some m => (.err ((c :: cs).take r.len) off m, r.len)
  | none => (.tok { kind := r.kind, text := (c :: cs).take r.len, offset := off }, r.len)

/-- Modelled from the spec (4.1): lex a string or block string; `cs` is
the input after an opening `"`. Two further quotes select the
block-string form. -/
def quoteUnit (off : Nat) (cs : Str) : LexUnit × Nat :=
  if cs.take 2 == ['"', '"'] then
    let b := blockScan (cs.drop 2)
    match b.2 with
    | none =>
        (.tok { kind := .blockString, text := ('"' :: cs).take (3 + b.1), offset := off }, 3 + b.1)
    | some msg => (.err (('"' :: cs).take (3 + b.1)) off msg, 3 + b.1)
  else
    let m := strScan cs
    match m.2 with
    | none => (.tok { kind := .string, text := ('"' :: cs).take (1 + m.1), offset := off }, 1 + m.1)
    | some msg => (.err (('"' :: cs).take (1 + m.1)) off msg, 1 + m.1)

/-- Modelled from the spec (4.1): lex a punctuator beginning with `.`:
`...` is a single punctuator, a shorter dot run is a lexical error. -/
def dotUnit (off : Nat) (cs : Str) : LexUnit × Nat :=
  if cs.take 2 == ['.', '.'] then
    (.tok { kind := .spread, text := ('.' :: cs).take 3, offset := off }, 3)
  else
    let n := 1 + (cs.takeWhile (fun d => d == '.')).length
    (.err (('.' :: cs).take n) off "unterminated spread operator, expected three dots", n)

/-- Modelled from the spec (4.1): a single-character punctuator, or a
stray-byte lexical error. -/
def otherUnit (off : Nat) (c : Char) : LexUnit × Nat :=
  match punctKind c with
  | some k => (.tok { kind := k, text := [c], offset := off }, 1)
  | none => (.err [c] off "unexpected character", 1)

/-- Modelled from the spec (section 4.1): classify one token or error
starting at the head character `c`, returning the lexer output unit and
the number of characters consumed. The unit's text is always the
consumed span of the input verbatim. -/
def lexStep (off : Nat) (c : Char) (cs : Str) : LexUnit × Nat :=
  if isWsChar c then
    let n := 1 + (cs.takeWhile isWsChar).length
    (.tok { kind := .whitespace, text := (c :: cs).take n, offset := off }, n)
  else if c == '#' then
    let n := 1 + (cs.takeWhile (fun d => !(d == '\n'))).length
    (.tok { kind := .comment, text := (c :: cs).take n, offset := off }, n)
  else if isNameStart c then
    let n := 1 + (cs.takeWhile isNameChar).length
    (.tok { kind := .ident, text := (c :: cs).take n, offset := off }, n)
  else if isDigitCh c || c == '-' then
    numUnit off c cs
  else if c == '"' then
    quoteUnit off cs
  else if c == '.' then
    dotUnit off cs
  else
    otherUnit off c

/-- Modelled from the spec (section 4.1): the lexer's single pass over the
source, emitting tokens and errors in source order. `fuel` bounds the
number of emitted units; every step consumes at least one character, so
`fuel = length + 1` never runs out. -/
def lexGo : Nat → Nat → Str → List LexUnit
  | 0, _, _ => []
  | _ + 1, _, [] => []
  | fuel + 1, off, c :: cs =>
      let r := lexStep off c cs
      r.1 :: lexGo fuel (off + r.2) ((c :: cs).drop r.2)

/-- `Lexer::tokens(source)`: the full ordered lexer output. -/
def lexAll (s : Str) : List LexUnit :=
  lexGo (s.length + 1) 0 s

/-- The tokens of the lexer output, in source order. -/
def lexTokens (s : Str) : List Token :=
  (lexAll s).filterMap fun u =>
    match u with
    | .tok t => some t
    | .err _ _ _ => none

/-- The lexical errors of the lexer output, in source order, as `Error`
values (`length` is the length of the offending span). -/
def lexErrors (s : Str) : List Error :=
  (lexAll s).filterMap fun u =>
    match u with
    | .tok _ => none
    | .err t off m => some { message := m, offset := off, length := t.length }

/-- Concatenated text of a token sequence. -/
def tokensText (ts : List Token) : Str :=
  ts.foldr (fun t acc => t.text ++ acc) []

theorem numBody_pos (s : Nat) (l1 : Str)
    (hs : 1 ≤ s ∨ 1 ≤ (l1.takeWhile isDigitCh).length) :
    1 ≤ (numBody s l1).len := by
  simp only [numBody]
  split
  · next hd =>
      simp only [beq_iff_eq] at hd
      dsimp only
      rcases hs with hs | hs <;> omega
  · next hd =>
      simp only [beq_iff_eq] at hd
      split
      · simp only []
        omega
      · split
        · simp only []
          omega
        · split <;> · simp only []; omega

theorem numScan_pos (c : Char) (cs : Str) (h : isDigitCh c = true ∨ c = '-') :
    1 ≤ (numScan (c :: cs)).len := by
  by_cases hc : c = '-'
  · subst hc
    simp only [numScan, List.head?_cons, beq_self_eq_true, if_pos]
    exact numBody_pos 1 cs (Or.inl (by omega))
  · have hd : isDigitCh c = true := by
      rcases h with h | h
      · exact h
      · exact absurd h hc
    have hcond : ((c :: cs).head? == some '-') = false := by
      simp [hc]
    simp only [numScan, hcond, Bool.false_eq_true, if_neg, not_false_eq_true]
    apply numBody_pos
    right
    rw [List.takeWhile_cons_of_pos hd]
    simp

theorem numUnit_text (off : Nat) (c : Char) (cs : Str) :
    unitText (numUnit off c cs).1 = (c :: cs).take (numUnit off c cs).2 := by
  cases h : (numScan (c :: cs)).err <;> simp [numUnit, h, unitText]

theorem numUnit_pos (off : Nat) (c : Char) (cs : Str) (h : isDigitCh c = true ∨ c = '-') :
    1 ≤ (numUnit off c cs).2 := by
  have := numScan_pos c cs h
  cases hh : (numScan (c :: cs)).err <;> simpa [numUnit, hh]

theorem quoteUnit_text (off : Nat) (cs : Str) :
    unitText (quoteUnit off cs).1 = ('"' :: cs).take (quoteUnit off cs).2 := by
  by_cases hb : (cs.take 2 == ['"', '"']) = true
  · cases h : (blockScan (cs.drop 2)).2 <;> simp [quoteUnit, hb, h, unitText]
  · cases h : (strScan cs).2 <;> simp [quoteUnit, hb, h, unitText]

theorem quoteUnit_pos (off : Nat) (cs : Str) : 1 ≤ (quoteUnit off cs).2 := by
  by_cases hb : (cs.take 2 == ['"', '"']) = true
  · cases h : (blockScan (cs.drop 2)).2 <;> · simp [quoteUnit, hb, h]; omega
  · cases h : (strScan cs).2 <;> simp [quoteUnit, hb, h]

theorem dotUnit_text (off : Nat) (cs : Str) :
    unitText (dotUnit off cs).1 = ('.' :: cs).take (dotUnit off cs).2 := by
  by_cases hb : (cs.take 2 == ['.', '.']) = true <;> simp [dotUnit, hb, unitText]

theorem dotUnit_pos (off : Nat) (cs : Str) : 1 ≤ (dotUnit off cs).2 := by
  by_cases hb : (cs.take 2 == ['.', '.']) = true <;> simp [dotUnit, hb]

theorem otherUnit_text (off : Nat) (c : Char) (cs : Str) :
    unitText (otherUnit off c).1 = (c :: cs).take (otherUnit off c).2 := by
  cases h : punctKind c <;> simp [otherUnit, h, unitText]

theorem otherUnit_pos (off : Nat) (c : Char) : 1 ≤ (otherUnit off c).2 := by
  cases h : punctKind c <;> simp [otherUnit, h]

theorem lexStep_text (off : Nat) (c : Char) (cs : Str) :
    unitText (lexStep off c cs).1 = (c :: cs).take (lexStep off c cs).2 := by
  unfold lexStep
  split
  · rfl
  split
  · rfl
  split
  · rfl
  split
  · exact numUnit_text off c cs
  split
  · next h =>
      have : c = '"' := by simpa using h
      subst this
      exact quoteUnit_text off cs
  split
  · next h =>
      have : c = '.' := by simpa using h
      subst this
      exact dotUnit_text off cs
  · exact otherUnit_text off c cs

theorem lexStep_pos (off : Nat) (c : Char) (cs : Str) :
    1 ≤ (lexStep off c cs).2 := by
  unfold lexStep
  split
  · simp
  split
  · simp
  split
  · simp
  split
  · next h =>
      apply numUnit_pos
      rcases Bool.or_eq_true_iff.mp h with h | h
      · exact Or.inl h
      · exact Or.inr (by simpa using h)
  split
  · exact quoteUnit_pos off cs
  split
  · exact dotUnit_pos off cs
  · exact otherUnit_pos off c

theorem lexGo_text : ∀ (fuel off : Nat) (cs : Str), cs.length ≤ fuel →
    unitsText (lexGo fuel off cs) = cs := by
  intro fuel
  induction fuel with
  | zero =>
      intro off cs h
      have : cs = [] := by
        cases cs
        · rfl
        · simp at h
      simp [this, lexGo, unitsText]
  | succ n ih =>
      intro off cs h
      cases cs with
      | nil => simp [lexGo, unitsText]
      | cons c cs' =>
          have hpos := lexStep_pos off c cs'
          have htext := lexStep_text off c cs'
          have hlen : ((c :: cs').drop (lexStep off c cs').2).length ≤ n := by
            simp only [List.length_drop, List.length_cons]
            simp only [List.length_cons] at h
            omega
          calc unitsText (lexGo (n + 1) off (c :: cs'))
              = unitText (lexStep off c cs').1 ++
                  unitsText (lexGo n (off + (lexStep off c cs').2)
                    ((c :: cs').drop (lexStep off c cs').2)) := by
                simp [lexGo, unitsText]
            _ = (c :: cs').take (lexStep off c cs').2 ++
                  (c :: cs').drop (lexStep off c cs').2 := by
                rw [htext, ih _ _ hlen]
            _ = c :: cs' := List.take_append_drop _ _

/-- Lexer losslessness: concatenating the texts of all lexer output units
(tokens and error spans alike) reproduces the input. -/
theorem lexAll_text (s : Str) : unitsText (lexAll s) = s :=
  lexGo_text (s.length + 1) 0 s (by omega)

/-! ## Grammar productions

Modelled from the spec: the grammar-production modules
(`parser/{operation,fragment,selection,...}.rs`) are not among the
provided sources. Spec sections 4.2, 4.3 and 9 fix their discipline:
each production uses only the driver primitives (`peek`, `peek_data`,
`bump`, `start_node`, `push_err`), opens nodes under the scope-guard
discipline (every opened node is closed exactly once, even on early
exit), reports errors without aborting, and recovers per the section 4.3
policy. Productions are terms of a small action language interpreted
against the driver state, so that these disciplines are facts about the
interpreter. -/

/-- Names of the grammar-production routines (one per nonterminal,
spec 4.3). Extensions are omitted: the top-level dispatch in
`Parser::parse` (`mod.rs` lines 79-98) has no `extend` arm, so extension
productions are unreachable from `parse`. -/
inductive ProdName where
  | name
  | fragment_name
  | type_condition
  | ty
  | ty_base
  | description
  | value
  | list_value
  | object_value
  | object_field
  | variable
  | selection_set
  | selection
  | field
  | fragment_spread
  | inline_fragment
  | arguments
  | argument
  | variable_definitions
  | variable_definition
  | default_value
  | directives
  | directive
  | operation_definition
  | fragment_definition
  | schema_definition
  | operation_type_definition
  | scalar_type_definition
  | object_type_definition
  | interface_type_definition
  | union_type_definition
  | enum_type_definition
  | input_object_type_definition
  | directive_definition
  | implements_interfaces
  | fields_definition
  | field_definition
  | arguments_definition
  | input_value_definition
  | union_member_types
  | enum_values_definition
  | enum_value_definition
  | input_fields_definition
  | directive_locations
deriving DecidableEq, Repr

/-- The production action language. Every action is built from the
driver primitives of section 4.2; `node` brackets its body between
`start_node` and the guard's `finish_node` (the scope-guard discipline of
spec section 9). Conditions are read-only views of the driver state
(`peek`/`peek_data` combinations). -/
inductive Act where
  | nop
  | bumpTok (kind : SyntaxKind)
  | bumpAny
  | errHere (message : String)
  | node (kind : SyntaxKind) (body : Act)
  | seq (a b : Act)
  | branch (cond : PState → Bool) (thn els : Act)
  | loop (cond : PState → Bool) (body : Act)
  | callP (p : ProdName)

/-- The `SyntaxKind` a token keeps when attached to the tree unchanged
(trivia and recovery skips). -/
def tokSyn : TokenKind → SyntaxKind
  | .whitespace => WHITESPACE
  | .comment => COMMENT
  | .ident => IDENT
  | .int => INT
  | .float => FLOAT
  | .string => STRING
  | .blockString => STRING
  | .bang => BANG
  | .dollar => DOLLAR
  | .lParen => L_PAREN
  | .rParen => R_PAREN
  | .spread => SPREAD
  | .colon => COLON
  | .eq => EQ
  | .atSym => AT
  | .lBrack => L_BRACK
  | .rBrack => R_BRACK
  | .lCurly => L_CURLY
  | .pipe => PIPE
  | .rCurly => R_CURLY
  | .amp => AMP

/-- Total wrapper over `Parser::bump`: the productions only bump after a
successful peek, so the empty-buffer case (a panic in the Rust driver,
see `mod.rs` line 110) is unreachable in the traces they generate. -/
def bumpF (kind : SyntaxKind) (p : PState) : PState :=
  match Parser.bump kind p with
  | some q => q
  | none => p

/-- Bump the next token under its own kind (trivia and recovery skips:
spec 7 invariant 2, unknown tokens attach as trivia-like children). -/
def bumpAnyF (p : PState) : PState :=
  match p.tokens with
  | [] => p
  | t :: _ => bumpF (tokSyn t.kind) p

/-- Offset for a diagnostic at the current position: the next token's
offset, or the input length at end of input. -/
def curOffset (p : PState) : Nat :=
  match p.tokens with
  | [] => p.endOffset
  | t :: _ => t.offset

/-- Recovery policy for a missing required token (spec 4.3): an error at
the current offset with zero length; nothing is synthesized. -/
def errHereF (msg : String) (p : PState) : PState :=
  Parser.push_err { message := msg, offset := curOffset p, length := 0 } p

/-- Condition: the next token has the given kind. -/
def peekKindIs (k : TokenKind) (p : PState) : Bool :=
  Parser.peek p == some k

/-- Condition: the next token has the given text (contextual keywords,
spec 4.8). -/
def peekDataIs (s : String) (p : PState) : Bool :=
  Parser.peek_data p == some s.data

/-- Condition: a token remains. -/
def hasTok (p : PState) : Bool :=
  !(Parser.peek p == none)

/-- Condition: the next token is trivia. -/
def peekTrivia (p : PState) : Bool :=
  peekKindIs .whitespace p || peekKindIs .comment p

/-- Boolean-condition disjunction. -/
def cOr (c d : PState → Bool) (p : PState) : Bool :=
  c p || d p

/-- Boolean-condition conjunction. -/
def cAnd (c d : PState → Bool) (p : PState) : Bool :=
  c p && d p

/-- Boolean-condition negation. -/
def cNot (c : PState → Bool) (p : PState) : Bool :=
  !(c p)

/-- Consume any run of trivia, attaching it to the current node. -/
def triviaAct : Act :=
  .loop peekTrivia .bumpAny

/-- An element followed by its trailing trivia. -/
def andT (a : Act) : Act :=
  .seq a triviaAct

/-- List-production recovery (spec 4.3): emit an error and skip one
token, attaching it to the current node, until a recognized first-set or
the closing delimiter. -/
def skipErr (msg : String) : Act :=
  .seq (.errHere msg) (andT .bumpAny)

/-- Tokens remain and the next is not the closing delimiter `k`. -/
def inList (k : TokenKind) : PState → Bool :=
  cAnd hasTok (cNot (peekKindIs k))

/-- Skip trivia in a raw token sequence (for read-only lookahead). -/
def skipTriviaToks (ts : List Token) : List Token :=
  ts.dropWhile (fun t => t.kind == .whitespace || t.kind == .comment)

/-- Lookahead (spec 4.3 *Field alias*): after the leading identifier, is
the next non-trivia token a `:`? -/
def aliasAhead (p : PState) : Bool :=
  match p.tokens with
  | _ :: rest =>
      match skipTriviaToks rest with
      | t :: _ => t.kind == .colon
      | [] => false
  | [] => false

/-- Lookahead (spec 4.3): `...` followed by `on` or `{` begins an inline
fragment; `...` followed by another identifier begins a fragment
spread. -/
def spreadInline (p : PState) : Bool :=
  match p.tokens with
  | _ :: rest =>
      match skipTriviaToks rest with
      | t :: _ => t.kind == .lCurly || (t.kind == .ident && t.text == ['o', 'n'])
      | [] => false
  | [] => false

/-- Skip past the `]` that closes the bracket context opened before
`ts` (`depth` further `[` already open). -/
def afterMatch : Nat → Nat → List Token → List Token
  | 0, _, ts => ts
  | _ + 1, _, [] => []
  | fuel + 1, depth, t :: rest =>
      if t.kind == .lBrack then afterMatch fuel (depth + 1) rest
      else if t.kind == .rBrack then
        (if depth == 0 then rest else afterMatch fuel (depth - 1) rest)
      else afterMatch fuel depth rest

/-- Lookahead (spec 4.3 *Types*): is the type starting at the next token
followed by `!`? `NonNullType` wraps either `NamedType` or `ListType`
and binds tighter than both. -/
def bangAfterTy (p : PState) : Bool :=
  match skipTriviaToks p.tokens with
  | [] => false
  | t :: rest =>
      if t.kind == .lBrack then
        match skipTriviaToks (afterMatch rest.length 0 rest) with
        | u :: _ => u.kind == .bang
        | [] => false
      else if t.kind == .ident then
        match skipTriviaToks rest with
        | u :: _ => u.kind == .bang
        | [] => false
      else false

/-- First-set of `Selection`: a field name or `...`. -/
def selFirst : PState → Bool :=
  cOr (peekKindIs .ident) (peekKindIs .spread)

/-- First-set of `Value`. -/
def valueFirst : PState → Bool :=
  fun p =>
    peekKindIs .dollar p || peekKindIs .string p || peekKindIs .blockString p ||
    peekKindIs .int p || peekKindIs .float p || peekKindIs .ident p ||
    peekKindIs .lBrack p || peekKindIs .lCurly p

/-- First-set of a description (spec 4.3: a string before a
definition). -/
def descFirst : PState → Bool :=
  cOr (peekKindIs .string) (peekKindIs .blockString)

/-- A fragment name: an identifier other than `on` (spec 4.3 lookahead
rules). -/
def fragNameOk (p : PState) : Bool :=
  peekKindIs .ident p && !(peekDataIs "on" p)

/-- Classify the operation-type keyword by `peek_data` (spec 4.8). -/
def opKwBump : Act :=
  .branch (peekDataIs "query") (.bumpTok query_KW)
    (.branch (peekDataIs "mutation") (.bumpTok mutation_KW)
      (.branch (peekDataIs "subscription") (.bumpTok subscription_KW) (.bumpTok IDENT)))

/-- Modelled from the spec (section 4.3): the body of each grammar
production. Each routine expects its first-set at `peek`, opens a node
of the appropriate kind, consumes tokens, dispatches to sub-productions
and closes the node; missing required tokens produce a zero-length error
at the current offset; list productions skip unrecognized tokens after
reporting them. -/
def prodBody : ProdName → Act
  | .name => .branch (peekKindIs .ident) (.node NAME (.bumpTok IDENT))
      (.errHere "expected a Name")
  | .fragment_name => .node FRAGMENT_NAME (.callP .name)
  | .type_condition => .node TYPE_CONDITION
      (.seq (andT (.bumpTok on_KW))
        (.branch (peekKindIs .ident) (.node NAMED_TYPE (.callP .name))
          (.errHere "expected a Named Type")))
  | .ty => .branch bangAfterTy
      (.node NON_NULL_TYPE (.seq (.callP .ty_base)
        (.branch (peekKindIs .bang) (.bumpTok BANG) (.errHere "expected !"))))
      (.callP .ty_base)
  | .ty_base => .branch (peekKindIs .lBrack)
      (.node LIST_TYPE (.seq (andT (.bumpTok L_BRACK))
        (.seq (.branch (cOr (peekKindIs .lBrack) (peekKindIs .ident))
            (andT (.callP .ty)) (.errHere "expected a type"))
          (.branch (peekKindIs .rBrack) (.bumpTok R_BRACK) (.errHere "expected ]")))))
      (.branch (peekKindIs .ident) (.node NAMED_TYPE (.callP .name))
        (.errHere "expected a type"))
  | .description => .node DESCRIPTION (.node STRING_VALUE .bumpAny)
  | .value => .branch (peekKindIs .dollar) (.callP .variable)
      (.branch (cOr (peekKindIs .string) (peekKindIs .blockString))
        (.node STRING_VALUE .bumpAny)
        (.branch (peekKindIs .int) (.node INT_VALUE (.bumpTok INT))
          (.branch (peekKindIs .float) (.node FLOAT_VALUE (.bumpTok FLOAT))
            (.branch (cAnd (peekKindIs .ident) (peekDataIs "true"))
              (.node BOOLEAN_VALUE (.bumpTok true_KW))
              (.branch (cAnd (peekKindIs .ident) (peekDataIs "false"))
                (.node BOOLEAN_VALUE (.bumpTok false_KW))
                (.branch (cAnd (peekKindIs .ident) (peekDataIs "null"))
                  (.node NULL_VALUE (.bumpTok null_KW))
                  (.branch (peekKindIs .ident) (.node ENUM_VALUE (.callP .name))
                    (.branch (peekKindIs .lBrack) (.callP .list_value)
                      (.branch (peekKindIs .lCurly) (.callP .object_value)
                        (.errHere "expected a Value"))))))))))
  | .list_value => .node LIST_VALUE (.seq (andT (.bumpTok L_BRACK))
      (.seq (.loop (inList .rBrack)
          (.branch valueFirst (andT (.callP .value))
            (skipErr "unexpected token in list value")))
        (.branch (peekKindIs .rBrack) (.bumpTok R_BRACK) (.errHere "expected ]"))))
  | .object_value => .node OBJECT_VALUE (.seq (andT (.bumpTok L_CURLY))
      (.seq (.loop (inList .rCurly)
          (.branch (peekKindIs .ident) (andT (.callP .object_field))
            (skipErr "unexpected token in object value")))
        (.branch (peekKindIs .rCurly) (.bumpTok R_CURLY) (.errHere "expected \x7d"))))
  | .object_field => .node OBJECT_FIELD (.seq (andT (.callP .name))
      (.seq (.branch (peekKindIs .colon) (andT (.bumpTok COLON)) (.errHere "expected :"))
        (.callP .value)))
  | .variable => .node VARIABLE (.seq (andT (.bumpTok DOLLAR))
      (.branch (peekKindIs .ident) (.callP .name) (.errHere "expected a Name")))
  | .selection_set => .node SELECTION_SET (.seq (andT (.bumpTok L_CURLY))
      (.seq (.loop (inList .rCurly)
          (.branch selFirst (andT (.callP .selection))
            (skipErr "unexpected token in selection set")))
        (.branch (peekKindIs .rCurly) (.bumpTok R_CURLY) (.errHere "expected \x7d"))))
  | .selection => .branch (peekKindIs .spread)
      (.branch spreadInline (.callP .inline_fragment) (.callP .fragment_spread))
      (.callP .field)
  | .field => .node FIELD (.seq
      (.branch aliasAhead
        (.node ALIAS (.seq (andT (.callP .name)) (andT (.bumpTok COLON)))) .nop)
      (.seq (.branch (peekKindIs .ident) (.callP .name) (.errHere "expected a Name"))
        (.seq triviaAct
          (.seq (.branch (peekKindIs .lParen) (andT (.callP .arguments)) .nop)
            (.seq (.branch (peekKindIs .atSym) (andT (.callP .directives)) .nop)
              (.branch (peekKindIs .lCurly) (.callP .selection_set) .nop))))))
  | .fragment_spread => .node FRAGMENT_SPREAD (.seq (andT (.bumpTok SPREAD))
      (.seq (.branch fragNameOk (andT (.callP .fragment_name))
          (.errHere "expected a Fragment Name"))
        (.branch (peekKindIs .atSym) (.callP .directives) .nop)))
  | .inline_fragment => .node INLINE_FRAGMENT (.seq (andT (.bumpTok SPREAD))
      (.seq (.branch (cAnd (peekKindIs .ident) (peekDataIs "on"))
          (andT (.callP .type_condition)) .nop)
        (.seq (.branch (peekKindIs .atSym) (andT (.callP .directives)) .nop)
          (.branch (peekKindIs .lCurly) (.callP .selection_set)
            (.errHere "expected a Selection Set")))))
  | .arguments => .node ARGUMENTS (.seq (andT (.bumpTok L_PAREN))
      (.seq (.loop (inList .rParen)
          (.branch (peekKindIs .ident) (andT (.callP .argument))
            (skipErr "unexpected token in arguments")))
        (.branch (peekKindIs .rParen) (.bumpTok R_PAREN) (.errHere "expected )"))))
  | .argument => .node ARGUMENT (.seq (andT (.callP .name))
      (.seq (.branch (peekKindIs .colon) (andT (.bumpTok COLON)) (.errHere "expected :"))
        (.callP .value)))
  | .variable_definitions => .node VARIABLE_DEFINITIONS (.seq (andT (.bumpTok L_PAREN))
      (.seq (.loop (inList .rParen)
          (.branch (peekKindIs .dollar) (andT (.callP .variable_definition))
            (skipErr "unexpected token in variable definitions")))
        (.branch (peekKindIs .rParen) (.bumpTok R_PAREN) (.errHere "expected )"))))
  | .variable_definition => .node VARIABLE_DEFINITION (.seq (andT (.callP .variable))
      (.seq (.branch (peekKindIs .colon) (andT (.bumpTok COLON)) (.errHere "expected :"))
        (.seq (andT (.callP .ty))
          (.branch (peekKindIs .eq) (andT (.callP .default_value)) .nop))))
  | .default_value => .node DEFAULT_VALUE (.seq (andT (.bumpTok EQ)) (.callP .value))
  | .directives => .node DIRECTIVES (.loop (peekKindIs .atSym) (andT (.callP .directive)))
  | .directive => .node DIRECTIVE (.seq (.bumpTok AT)
      (.seq (.branch (peekKindIs .ident) (andT (.callP .name)) (.errHere "expected a Name"))
        (.branch (peekKindIs .lParen) (.callP .arguments) .nop)))
  | .operation_definition => .node OPERATION_DEFINITION
      (.branch (peekKindIs .lCurly) (.callP .selection_set)
        (.seq (.node OPERATION_TYPE opKwBump)
          (.seq triviaAct
            (.seq (.branch (peekKindIs .ident) (andT (.callP .name)) .nop)
              (.seq (.branch (peekKindIs .lParen) (andT (.callP .variable_definitions)) .nop)
                (.seq (.branch (peekKindIs .atSym) (andT (.callP .directives)) .nop)
                  (.branch (peekKindIs .lCurly) (.callP .selection_set)
                    (.errHere "expected a Selection Set"))))))))
  | .fragment_definition => .node FRAGMENT_DEFINITION (.seq (andT (.bumpTok fragment_KW))
      (.seq (.branch fragNameOk (andT (.callP .fragment_name))
          (.errHere "expected a Fragment Name"))
        (.seq (.branch (cAnd (peekKindIs .ident) (peekDataIs "on"))
            (andT (.callP .type_condition)) (.errHere "expected a Type Condition"))
          (.seq (.branch (peekKindIs .atSym) (andT (.callP .directives)) .nop)
            (.branch (peekKindIs .lCurly) (.callP .selection_set)
              (.errHere "expected a Selection Set"))))))
  | .schema_definition => .node SCHEMA_DEFINITION (.seq (andT (.bumpTok schema_KW))
      (.seq (.branch (peekKindIs .atSym) (andT (.callP .directives)) .nop)
        (.branch (peekKindIs .lCurly)
          (.seq (andT (.bumpTok L_CURLY))
            (.seq (.loop (inList .rCurly)
                (.branch (peekKindIs .ident) (andT (.callP .operation_type_definition))
                  (skipErr "unexpected token in schema definition")))
              (.branch (peekKindIs .rCurly) (.bumpTok R_CURLY) (.errHere "expected \x7d"))))
          (.errHere "expected \x7b"))))
  | .operation_type_definition => .node OPERATION_TYPE_DEFINITION
      (.seq (.node OPERATION_TYPE opKwBump)
        (.seq triviaAct
          (.seq (.branch (peekKindIs .colon) (andT (.bumpTok COLON)) (.errHere "expected :"))
            (.branch (peekKindIs .ident) (.node NAMED_TYPE (.callP .name))
              (.errHere "expected a Named Type")))))
  | .scalar_type_definition => .node SCALAR_TYPE_DEFINITION (.seq (andT (.bumpTok scalar_KW))
      (.seq (.branch (peekKindIs .ident) (andT (.callP .name)) (.errHere "expected a Name"))
        (.branch (peekKindIs .atSym) (.callP .directives) .nop)))
  | .object_type_definition => .node OBJECT_TYPE_DEFINITION (.seq (andT (.bumpTok type_KW))
      (.seq (.branch (peekKindIs .ident) (andT (.callP .name)) (.errHere "expected a Name"))
        (.seq (.branch (cAnd (peekKindIs .ident) (peekDataIs "implements"))
            (andT (.callP .implements_interfaces)) .nop)
          (.seq (.branch (peekKindIs .atSym) (andT (.callP .directives)) .nop)
            (.branch (peekKindIs .lCurly) (.callP .fields_definition) .nop)))))
  | .interface_type_definition => .node INTERFACE_TYPE_DEFINITION
      (.seq (andT (.bumpTok interface_KW))
        (.seq (.branch (peekKindIs .ident) (andT (.callP .name)) (.errHere "expected a Name"))
          (.seq (.branch (peekKindIs .atSym) (andT (.callP .directives)) .nop)
            (.branch (peekKindIs .lCurly) (.callP .fields_definition) .nop))))
  | .union_type_definition => .node UNION_TYPE_DEFINITION (.seq (andT (.bumpTok union_KW))
      (.seq (.branch (peekKindIs .ident) (andT (.callP .name)) (.errHere "expected a Name"))
        (.seq (.branch (peekKindIs .atSym) (andT (.callP .directives)) .nop)
          (.branch (peekKindIs .eq) (.callP .union_member_types) .nop))))
  | .enum_type_definition => .node ENUM_TYPE_DEFINITION (.seq (andT (.bumpTok enum_KW))
      (.seq (.branch (peekKindIs .ident) (andT (.callP .name)) (.errHere "expected a Name"))
        (.seq (.branch (peekKindIs .atSym) (andT (.callP .directives)) .nop)
          (.branch (peekKindIs .lCurly) (.callP .enum_values_definition) .nop))))
  | .input_object_type_definition => .node INPUT_OBJECT_TYPE_DEFINITION
      (.seq (andT (.bumpTok input_KW))
        (.seq (.branch (peekKindIs .ident) (andT (.callP .name)) (.errHere "expected a Name"))
          (.seq (.branch (peekKindIs .atSym) (andT (.callP .directives)) .nop)
            (.branch (peekKindIs .lCurly) (.callP .input_fields_definition) .nop))))
  | .directive_definition => .node DIRECTIVE_DEFINITION (.seq (andT (.bumpTok directive_KW))
      (.seq (.branch (peekKindIs .atSym) (andT (.bumpTok AT)) (.errHere "expected @"))
        (.seq (.branch (peekKindIs .ident) (andT (.callP .name)) (.errHere "expected a Name"))
          (.seq (.branch (peekKindIs .lParen) (andT (.callP .arguments_definition)) .nop)
            (.branch (cAnd (peekKindIs .ident) (peekDataIs "on"))
              (.callP .directive_locations) (.errHere "expected directive locations"))))))
  | .implements_interfaces => .node IMPLEMENTS_INTERFACES
      (.seq (andT (.bumpTok implements_KW))
        (.seq (.branch (peekKindIs .amp) (andT (.bumpTok AMP)) .nop)
          (.seq (.branch (peekKindIs .ident)
              (.seq (.node NAMED_TYPE (.callP .name)) triviaAct)
              (.errHere "expected a Named Type"))
            (.loop (peekKindIs .amp)
              (.seq (andT (.bumpTok AMP))
                (.branch (peekKindIs .ident)
                  (.seq (.node NAMED_TYPE (.callP .name)) triviaAct)
                  (.errHere "expected a Named Type")))))))
  | .fields_definition => .node FIELDS_DEFINITION (.seq (andT (.bumpTok L_CURLY))
      (.seq (.loop (inList .rCurly)
          (.branch (cOr descFirst (peekKindIs .ident)) (andT (.callP .field_definition))
            (skipErr "unexpected token in fields definition")))
        (.branch (peekKindIs .rCurly) (.bumpTok R_CURLY) (.errHere "expected \x7d"))))
  | .field_definition => .node FIELD_DEFINITION
      (.seq (.branch descFirst (andT (.callP .description)) .nop)
        (.seq (.branch (peekKindIs .ident) (andT (.callP .name)) (.errHere "expected a Name"))
          (.seq (.branch (peekKindIs .lParen) (andT (.callP .arguments_definition)) .nop)
            (.seq (.branch (peekKindIs .colon) (andT (.bumpTok COLON)) (.errHere "expected :"))
              (.seq (andT (.callP .ty))
                (.branch (peekKindIs .atSym) (.callP .directives) .nop))))))
  | .arguments_definition => .node ARGUMENTS_DEFINITION (.seq (andT (.bumpTok L_PAREN))
      (.seq (.loop (inList .rParen)
          (.branch (cOr descFirst (peekKindIs .ident)) (andT (.callP .input_value_definition))
            (skipErr "unexpected token in arguments definition")))
        (.branch (peekKindIs .rParen) (.bumpTok R_PAREN) (.errHere "expected )"))))
  | .input_value_definition => .node INPUT_VALUE_DEFINITION
      (.seq (.branch descFirst (andT (.callP .description)) .nop)
        (.seq (.branch (peekKindIs .ident) (andT (.callP .name)) (.errHere "expected a Name"))
          (.seq (.branch (peekKindIs .colon) (andT (.bumpTok COLON)) (.errHere "expected :"))
            (.seq (andT (.callP .ty))
              (.seq (.branch (peekKindIs .eq) (andT (.callP .default_value)) .nop)
                (.branch (peekKindIs .atSym) (.callP .directives) .nop))))))
  | .union_member_types => .node UNION_MEMBER_TYPES (.seq (andT (.bumpTok EQ))
      (.seq (.branch (peekKindIs .pipe) (andT (.bumpTok PIPE)) .nop)
        (.seq (.branch (peekKindIs .ident)
            (.seq (.node NAMED_TYPE (.callP .name)) triviaAct)
            (.errHere "expected a Named Type"))
          (.loop (peekKindIs .pipe)
            (.seq (andT (.bumpTok PIPE))
              (.branch (peekKindIs .ident)
                (.seq (.node NAMED_TYPE (.callP .name)) triviaAct)
                (.errHere "expected a Named Type")))))))
  | .enum_values_definition => .node ENUM_VALUES_DEFINITION (.seq (andT (.bumpTok L_CURLY))
      (.seq (.loop (inList .rCurly)
          (.branch (cOr descFirst (peekKindIs .ident)) (andT (.callP .enum_value_definition))
            (skipErr "unexpected token in enum values definition")))
        (.branch (peekKindIs .rCurly) (.bumpTok R_CURLY) (.errHere "expected \x7d"))))
  | .enum_value_definition => .node ENUM_VALUE_DEFINITION
      (.seq (.branch descFirst (andT (.callP .description)) .nop)
        (.seq (.branch (peekKindIs .ident) (.node ENUM_VALUE (.callP .name))
            (.errHere "expected a Name"))
          (.seq triviaAct
            (.branch (peekKindIs .atSym) (.callP .directives) .nop))))
  | .input_fields_definition => .node INPUT_FIELDS_DEFINITION (.seq (andT (.bumpTok L_CURLY))
      (.seq (.loop (inList .rCurly)
          (.branch (cOr descFirst (peekKindIs .ident)) (andT (.callP .input_value_definition))
            (skipErr "unexpected token in input fields definition")))
        (.branch (peekKindIs .rCurly) (.bumpTok R_CURLY) (.errHere "expected \x7d"))))
  | .directive_locations => .node DIRECTIVE_LOCATIONS (.seq (andT (.bumpTok on_KW))
      (.seq (.branch (peekKindIs .pipe) (andT (.bumpTok PIPE)) .nop)
        (.seq (.branch (peekKindIs .ident)
            (.seq (.node DIRECTIVE_LOCATION (.bumpTok LOCATION_KW)) triviaAct)
            (.errHere "expected a directive location"))
          (.loop (peekKindIs .pipe)
            (.seq (andT (.bumpTok PIPE))
              (.branch (peekKindIs .ident)
                (.seq (.node DIRECTIVE_LOCATION (.bumpTok LOCATION_KW)) triviaAct)
                (.errHere "expected a directive location")))))))

/-- One fuel level of the production interpreter: structural recursion
over the action; a production call or a loop iteration defers to `next`,
the interpreter at the next-lower fuel. -/
def interp1 (next : Act → PState → PState) : Act → PState → PState
  | .nop, p => p
  | .bumpTok k, p => bumpF k p
  | .bumpAny, p => bumpAnyF p
  | .errHere m, p => errHereF m p
  | .node k b, p => Parser.finish_node (interp1 next b (Parser.start_node k p))
  | .seq a b, p => interp1 next b (interp1 next a p)
  | .branch c a b, p => if c p then interp1 next a p else interp1 next b p
  | .loop c b, p => if c p then next (Act.seq b (Act.loop c b)) p else p
  | .callP q, p => next (prodBody q) p

/-- Interpreter of production actions over the driver state. `fuel`
bounds production-call depth and loop unrolling (the spec's recursion
cap, section 5); every theorem below holds for every fuel value. -/
def interp : Nat → Act → PState → PState
  | 0, _, p => p
  | fuel + 1, a, p => interp1 (interp fuel) a p

/-- Fuel used when `Parser::parse` invokes a production: generous enough
for realistic nesting (cf. the spec's configurable recursion cap). -/
def runProd (p : PState) (q : ProdName) : PState :=
  interp (100 * (p.tokens.length + 1)) (.callP q) p

/-- `Parser::new` (`mod.rs` lines 53-74): run the lexer, partition its
output into the token buffer and the error list. The source reverses the
token vector so that its tail is the next token; with the next token at
the list head the two reversals cancel. The source also reverses the
error vector (`errors.reverse()`), which is kept as written. -/
def Parser.new (input : Str) : PState :=
  { tokens := lexTokens input
    events := []
    errors := (lexErrors input).reverse
    endOffset := input.length }

/-- The keyword table of `Parser::parse` (`mod.rs` lines 82-95): the
production dispatched for the text of the next token, or `none` for the
`_ => break` arm. -/
def dispatchProd (d : Str) : Option ProdName :=
  if d = "fragment".data then some .fragment_definition
  else if d = "directive".data then some .directive_definition
  else if d = "schema".data then some .schema_definition
  else if d = "scalar".data then some .scalar_type_definition
  else if d = "type".data then some .object_type_definition
  else if d = "interface".data then some .interface_type_definition
  else if d = "union".data then some .union_type_definition
  else if d = "enum".data then some .enum_type_definition
  else if d = "input".data then some .input_object_type_definition
  else if d = "query".data ∨ d = "mutation".data ∨ d = "subscription".data ∨
      d = ['{'] then some .operation_definition
  else none

/-- The top-level dispatch loop of `Parser::parse` (`mod.rs` lines
79-98): match on `peek_data` and dispatch on the leading keyword or `{`;
stop on end of input or on anything unrecognized. `fuel` bounds the
iteration count; each dispatched production consumes at least its
leading token. -/
def docLoop : Nat → PState → PState
  | 0, p => p
  | fuel + 1, p =>
      match Parser.peek_data p with
      | none => p
      | some d =>
          match dispatchProd d with
          | some q => docLoop fuel (runProd p q)
          | none => p

/-- `Parser::parse` (`mod.rs` lines 76-106) up to the builder handoff:
open the `DOCUMENT` node, run the dispatch loop, close the node. -/
def Parser.parseState (input : Str) : PState :=
  let p0 := Parser.new input
  Parser.finish_node (docLoop (p0.tokens.length + 1) (Parser.start_node DOCUMENT p0))

/-! ## Green-tree builder

Modelled from the spec (section 4.4): the builder keeps a stack of
in-progress internal nodes; `finish_node` materializes the top frame into
a green node and attaches it to its parent; after the final
`finish_node` the stack holds one root. -/

/-- One builder step: apply an event to `(stack of open frames, finished
roots)`. Unbalanced events (a token or close with no open frame) are a
programming error per spec 4.4; they are absorbed without effect on the
stack so the fold is total. -/
def buildStep : (List (SyntaxKind × List Green) × List Green) → Event →
    (List (SyntaxKind × List Green) × List Green)
  | (frames, roots), .startNode k => ((k, []) :: frames, roots)
  | ((k0, cs) :: fr, roots), .token k t => ((k0, cs ++ [Green.leaf k t]) :: fr, roots)
  | ([], roots), .token k t => ([], roots ++ [Green.leaf k t])
  | ((k0, cs) :: (k1, cs1) :: fr, roots), .finishNode =>
      ((k1, cs1 ++ [Green.node k0 cs]) :: fr, roots)
  | ([(k0, cs)], roots), .finishNode => ([], roots ++ [Green.node k0 cs])
  | ([], roots), .finishNode => ([], roots)

/-- Run the builder over a full event trace. -/
def buildRun (evs : List Event) : List (SyntaxKind × List Green) × List Green :=
  evs.foldl buildStep ([], [])

/-- `SyntaxTreeBuilder::finish`: the assembled root. A balanced trace
with one top-level node ends with exactly one root (proved below for all
parser traces); the fallback is never reached by `parse`. -/
def buildRoot (evs : List Event) : Green :=
  match buildRun evs with
  | ([], [r]) => r
  | _ => Green.node DOCUMENT []

/-- The final artifact (spec section 3): the green root plus the flat
ordered error sequence. -/
structure SyntaxTree where
  root : Green
  errors : List Error

/-- `Parser::parse` (`mod.rs` lines 76-106): run the parse and surrender
the builder as a `SyntaxTree` carrying the accumulated errors. -/
def Parser.parse (input : Str) : SyntaxTree :=
  let st := Parser.parseState input
  { root := buildRoot st.events, errors := st.errors }

/-! ## Trace invariants

Balanced event traces (every `start_node` paired with exactly one
`finish_node`, properly nested) and the extension invariant satisfied by
every production action: the builder trace grows by a balanced segment
whose token texts are exactly the texts of the consumed tokens, and the
error list only grows at its tail. -/

/-- Balanced builder traces: the empty trace, a single token, a balanced
trace bracketed by one `start_node`/`finish_node` pair, and
concatenation. -/
inductive Bal : List Event → Prop where
  | nil : Bal []
  | tok (k : SyntaxKind) (t : Str) : Bal [Event.token k t]
  | wrap {d : List Event} (k : SyntaxKind) :
      Bal d → Bal (Event.startNode k :: d ++ [Event.finishNode])
  | app {a b : List Event} : Bal a → Bal b → Bal (a ++ b)

/-- Concatenated texts of the token events of a trace. -/
def evText : List Event → Str
  | [] => []
  | Event.token _ t :: rest => t ++ evText rest
  | Event.startNode _ :: rest => evText rest
  | Event.finishNode :: rest => evText rest

theorem evText_append (a b : List Event) : evText (a ++ b) = evText a ++ evText b := by
  induction a with
  | nil => simp [evText]
  | cons e as ih => cases e <;> simp [evText, ih, List.append_assoc]

theorem evText_start (k : SyntaxKind) (l : List Event) :
    evText (Event.startNode k :: l) = evText l := by
  simp [evText]

theorem evText_finish (l : List Event) :
    evText (l ++ [Event.finishNode]) = evText l := by
  rw [evText_append]
  simp [evText]

theorem termTextList_append (a b : List Green) :
    Green.termTextList (a ++ b) = Green.termTextList a ++ Green.termTextList b := by
  induction a with
  | nil => simp [Green.termTextList]
  | cons g gs ih => simp [Green.termTextList, ih]

/-- Extension invariant: `q` extends `p` by a balanced trace segment
whose token texts account exactly for the consumed tokens, and by
appended errors. -/
def PExt (p q : PState) : Prop :=
  ∃ d e, q.events = p.events ++ d ∧ Bal d ∧
    evText d ++ tokensText q.tokens = tokensText p.tokens ∧
    q.errors = p.errors ++ e

theorem ext_refl (p : PState) : PExt p p :=
  ⟨[], [], by simp, Bal.nil, by simp [evText], by simp⟩

theorem ext_trans {p q r : PState} (hpq : PExt p q) (hqr : PExt q r) : PExt p r := by
  obtain ⟨d1, e1, hev1, hb1, ht1, he1⟩ := hpq
  obtain ⟨d2, e2, hev2, hb2, ht2, he2⟩ := hqr
  refine ⟨d1 ++ d2, e1 ++ e2, by simp [hev1, hev2], Bal.app hb1 hb2, ?_, by simp [he1, he2]⟩
  rw [evText_append, List.append_assoc, ht2, ht1]

theorem bump_ext (k : SyntaxKind) (p : PState) : PExt p (bumpF k p) := by
  cases h : p.tokens with
  | nil =>
      have : bumpF k p = p := by simp [bumpF, Parser.bump, h]
      rw [this]
      exact ext_refl p
  | cons t ts =>
      refine ⟨[Event.token k t.text], [], ?_, Bal.tok k t.text, ?_, ?_⟩
      · simp [bumpF, Parser.bump, h]
      · simp [bumpF, Parser.bump, h, evText, tokensText]
      · simp [bumpF, Parser.bump, h]

theorem bumpAny_ext (p : PState) : PExt p (bumpAnyF p) := by
  cases h : p.tokens with
  | nil =>
      have : bumpAnyF p = p := by simp [bumpAnyF, h]
      rw [this]
      exact ext_refl p
  | cons t ts =>
      have : bumpAnyF p = bumpF (tokSyn t.kind) p := by simp [bumpAnyF, h]
      rw [this]
      exact bump_ext _ p

theorem errHere_ext (m : String) (p : PState) : PExt p (errHereF m p) :=
  ⟨[], [{ message := m, offset := curOffset p, length := 0 }], by simp [errHereF, Parser.push_err],
    Bal.nil, by simp [errHereF, Parser.push_err, evText], by simp [errHereF, Parser.push_err]⟩

theorem node_ext {k : SyntaxKind} {p q : PState}
    (h : PExt (Parser.start_node k p) q) : PExt p (Parser.finish_node q) := by
  obtain ⟨d, e, hev, hb, ht, he⟩ := h
  refine ⟨Event.startNode k :: d ++ [Event.finishNode], e, ?_, Bal.wrap k hb, ?_, ?_⟩
  · simp only [Parser.finish_node, hev, Parser.start_node]
    simp
  · simp only [evText, List.append_eq, evText_append, List.append_nil, Parser.finish_node]
    simpa [Parser.start_node] using ht
  · simp only [Parser.finish_node, he, Parser.start_node]

theorem interp1_ext (next : Act → PState → PState)
    (hnext : ∀ (a : Act) (p : PState), PExt p (next a p)) :
    ∀ (a : Act) (p : PState), PExt p (interp1 next a p) := by
  intro a
  induction a with
  | nop => intro p; exact ext_refl p
  | bumpTok k => intro p; exact bump_ext k p
  | bumpAny => intro p; exact bumpAny_ext p
  | errHere m => intro p; exact errHere_ext m p
  | node k b ihb => intro p; exact node_ext (ihb _)
  | seq a b iha ihb => intro p; exact ext_trans (iha p) (ihb _)
  | branch c a b iha ihb =>
      intro p
      simp only [interp1]
      split
      · exact iha p
      · exact ihb p
  | loop c b ihb =>
      intro p
      simp only [interp1]
      split
      · exact hnext _ p
      · exact ext_refl p
  | callP q => intro p; exact hnext _ p

theorem interp_ext : ∀ (fuel : Nat) (a : Act) (p : PState), PExt p (interp fuel a p) := by
  intro fuel
  induction fuel with
  | zero => intro a p; exact ext_refl p
  | succ f ihf => intro a p; exact interp1_ext (interp f) ihf a p

theorem docLoop_ext : ∀ (fuel : Nat) (p : PState), PExt p (docLoop fuel p) := by
  intro fuel
  induction fuel with
  | zero => intro p; exact ext_refl p
  | succ f ih =>
      intro p
      rcases hpd : Parser.peek_data p with _ | d
      · simp only [docLoop, hpd]
        exact ext_refl p
      · simp only [docLoop, hpd]
        rcases hq : dispatchProd d with _ | q
        · simp only [hq]
          exact ext_refl p
        · simp only [hq]
          exact ext_trans (interp_ext _ _ p) (ih _)

theorem new_events (s : Str) : (Parser.new s).events = [] := rfl

theorem new_tokens (s : Str) : (Parser.new s).tokens = lexTokens s := rfl

theorem new_errors (s : Str) : (Parser.new s).errors = (lexErrors s).reverse := rfl

theorem parseState_shape (input : Str) :
    ∃ d e, Bal d ∧
      (Parser.parseState input).events = Event.startNode DOCUMENT :: d ++ [Event.finishNode] ∧
      evText d ++ tokensText (Parser.parseState input).tokens = tokensText (lexTokens input) ∧
      (Parser.parseState input).errors = (lexErrors input).reverse ++ e := by
  obtain ⟨d, e, hev, hb, ht, he⟩ :=
    docLoop_ext ((Parser.new input).tokens.length + 1)
      (Parser.start_node DOCUMENT (Parser.new input))
  refine ⟨d, e, hb, ?_, ?_, ?_⟩
  · show (docLoop ((Parser.new input).tokens.length + 1)
        (Parser.start_node DOCUMENT (Parser.new input))).events ++ [Event.finishNode] =
        Event.startNode DOCUMENT :: d ++ [Event.finishNode]
    rw [hev]
    rfl
  · exact ht
  · exact he

theorem buildStep_start (fr : List (SyntaxKind × List Green)) (roots : List Green)
    (k : SyntaxKind) : buildStep (fr, roots) (Event.startNode k) = ((k, []) :: fr, roots) := by
  simp [buildStep]

theorem buildStep_token (k0 : SyntaxKind) (cs : List Green)
    (fr : List (SyntaxKind × List Green)) (roots : List Green) (k : SyntaxKind) (t : Str) :
    buildStep ((k0, cs) :: fr, roots) (Event.token k t) =
      ((k0, cs ++ [Green.leaf k t]) :: fr, roots) := by
  simp [buildStep]

theorem buildStep_fin2 (k0 k1 : SyntaxKind) (cs cs1 : List Green)
    (fr : List (SyntaxKind × List Green)) (roots : List Green) :
    buildStep ((k0, cs) :: (k1, cs1) :: fr, roots) Event.finishNode =
      ((k1, cs1 ++ [Green.node k0 cs]) :: fr, roots) := by
  simp [buildStep]

theorem buildStep_fin1 (k0 : SyntaxKind) (cs : List Green) (roots : List Green) :
    buildStep ([(k0, cs)], roots) Event.finishNode = ([], roots ++ [Green.node k0 cs]) := by
  simp [buildStep]

/-- Builder correctness on balanced segments: folding a balanced trace
extends the top open frame by a forest whose terminal text is the
trace's token text, leaving all other frames and the finished roots
untouched. -/
theorem buildFold {d : List Event} (hb : Bal d) :
    ∀ (k : SyntaxKind) (cs : List Green) (fr : List (SyntaxKind × List Green))
      (roots : List Green),
      ∃ F, d.foldl buildStep ((k, cs) :: fr, roots) = ((k, cs ++ F) :: fr, roots) ∧
        Green.termTextList F = evText d := by
  induction hb with
  | nil =>
      intro k cs fr roots
      exact ⟨[], by simp, by simp [Green.termTextList, evText]⟩
  | tok k' t =>
      intro k cs fr roots
      exact ⟨[Green.leaf k' t], by simp [buildStep_token],
        by simp [Green.termTextList, Green.termText, evText]⟩
  | @wrap d' k' hbd ih =>
      intro k cs fr roots
      obtain ⟨F, hF, hT⟩ := ih k' [] ((k, cs) :: fr) roots
      refine ⟨[Green.node k' F], ?_, ?_⟩
      · rw [List.foldl_append]
        simp only [List.foldl_cons, buildStep_start]
        rw [hF]
        simp only [List.foldl_nil, List.nil_append, buildStep_fin2]
      · simp only [evText, List.append_eq, evText_append, List.append_nil]
        rw [← hT]
        simp [Green.termTextList, Green.termText]
  | app hba hbb iha ihb =>
      intro k cs fr roots
      obtain ⟨Fa, hFa, hTa⟩ := iha k cs fr roots
      obtain ⟨Fb, hFb, hTb⟩ := ihb k (cs ++ Fa) fr roots
      refine ⟨Fa ++ Fb, ?_, ?_⟩
      · rw [List.foldl_append, hFa, hFb, List.append_assoc]
      · rw [termTextList_append, hTa, hTb, evText_append]

/-- The parsed root is always a `DOCUMENT` node whose terminal text,
together with the unconsumed token buffer, accounts for the full token
stream. -/
theorem parse_root (input : Str) :
    ∃ F, (Parser.parse input).root = Green.node DOCUMENT F ∧
      Green.termTextList F ++ tokensText (Parser.parseState input).tokens
        = tokensText (lexTokens input) := by
  obtain ⟨d, e, hb, hev, ht, he⟩ := parseState_shape input
  obtain ⟨F, hF, hT⟩ := buildFold hb DOCUMENT [] [] []
  refine ⟨F, ?_, ?_⟩
  · show buildRoot (Parser.parseState input).events = Green.node DOCUMENT F
    rw [hev]
    have h1 : buildRun (Event.startNode DOCUMENT :: d ++ [Event.finishNode]) =
        ([], [Green.node DOCUMENT F]) := by
      simp only [buildRun]
      rw [List.foldl_append]
      simp only [List.foldl_cons, buildStep_start]
      rw [hF]
      simp only [List.foldl_nil, List.nil_append, buildStep_fin1]
    simp only [buildRoot, h1]
  · rw [hT]
    exact ht

/-! ## Typed views

Embedded from `ast/generated/nodes.rs`. Every concrete typed view's
generated `can_cast`/`cast` pair is uniform: `can_cast kind` is equality
with the view's nonterminal tag and `cast` wraps the node when
`can_cast` holds (e.g. lines 743-753 for `Name`); `concreteCast` is that
uniform shape over a table of view tags. The nine sum views have
hand-shaped `cast` matches, embedded one by one. -/

/-- Children of a green element that are nodes (rowan's `children()`
iterates child nodes, skipping tokens). -/
def childNodesOf (n : Green) : List Green :=
  n.childrenOf.filter fun c =>
    match c with
    | .node _ _ => true
    | .leaf _ _ => false

/-- The concrete typed views of `nodes.rs`, in source order. -/
inductive ConcreteView where
  | Name
  | Document
  | OperationDefinition
  | FragmentDefinition
  | OperationType
  | VariableDefinitions
  | Directives
  | SelectionSet
  | Field
  | FragmentSpread
  | InlineFragment
  | Alias
  | Arguments
  | Argument
  | FragmentName
  | TypeCondition
  | NamedType
  | Variable
  | StringValue
  | FloatValue
  | IntValue
  | BooleanValue
  | NullValue
  | EnumValue
  | ListValue
  | ObjectValue
  | ObjectField
  | VariableDefinition
  | DefaultValue
  | ListType
  | NonNullType
  | Directive
  | SchemaDefinition
  | DirectiveDefinition
  | SchemaExtension
  | OperationTypeDefinition
  | Description
  | ScalarTypeDefinition
  | ObjectTypeDefinition
  | InterfaceTypeDefinition
  | UnionTypeDefinition
  | EnumTypeDefinition
  | InputObjectTypeDefinition
  | ScalarTypeExtension
  | ObjectTypeExtension
  | InterfaceTypeExtension
  | UnionTypeExtension
  | EnumTypeExtension
  | InputObjectTypeExtension
  | ImplementsInterfaces
  | FieldsDefinition
  | FieldDefinition
  | ArgumentsDefinition
  | InputValueDefinition
  | UnionMemberTypes
  | EnumValuesDefinition
  | EnumValueDefinition
  | InputFieldsDefinition
  | DirectiveLocations
  | DirectiveLocation
  | ExecutableDirectiveLocation
  | TypeSystemDirectiveLocation
deriving DecidableEq, Repr

/-- The nonterminal tag each concrete view's `can_cast` compares with
(`nodes.rs`, the `kind == TAG` in each `impl AstNode`). -/
def viewKind : ConcreteView → SyntaxKind
  | .Name => NAME
  | .Document => DOCUMENT
  | .OperationDefinition => OPERATION_DEFINITION
  | .FragmentDefinition => FRAGMENT_DEFINITION
  | .OperationType => OPERATION_TYPE
  | .VariableDefinitions => VARIABLE_DEFINITIONS
  | .Directives => DIRECTIVES
  | .SelectionSet => SELECTION_SET
  | .Field => FIELD
  | .FragmentSpread => FRAGMENT_SPREAD
  | .InlineFragment => INLINE_FRAGMENT
  | .Alias => ALIAS
  | .Arguments => ARGUMENTS
  | .Argument => ARGUMENT
  | .FragmentName => FRAGMENT_NAME
  | .TypeCondition => TYPE_CONDITION
  | .NamedType => NAMED_TYPE
  | .Variable => VARIABLE
  | .StringValue => STRING_VALUE
  | .FloatValue => FLOAT_VALUE
  | .IntValue => INT_VALUE
  | .BooleanValue => BOOLEAN_VALUE
  | .NullValue => NULL_VALUE
  | .EnumValue => ENUM_VALUE
  | .ListValue => LIST_VALUE
  | .ObjectValue => OBJECT_VALUE
  | .ObjectField => OBJECT_FIELD
  | .VariableDefinition => VARIABLE_DEFINITION
  | .DefaultValue => DEFAULT_VALUE
  | .ListType => LIST_TYPE
  | .NonNullType => NON_NULL_TYPE
  | .Directive => DIRECTIVE
  | .SchemaDefinition => SCHEMA_DEFINITION
  | .DirectiveDefinition => DIRECTIVE_DEFINITION
  | .SchemaExtension => SCHEMA_EXTENSION
  | .OperationTypeDefinition => OPERATION_TYPE_DEFINITION
  | .Description => DESCRIPTION
  | .ScalarTypeDefinition => SCALAR_TYPE_DEFINITION
  | .ObjectTypeDefinition => OBJECT_TYPE_DEFINITION
  | .InterfaceTypeDefinition => INTERFACE_TYPE_DEFINITION
  | .UnionTypeDefinition => UNION_TYPE_DEFINITION
  | .EnumTypeDefinition => ENUM_TYPE_DEFINITION
  | .InputObjectTypeDefinition => INPUT_OBJECT_TYPE_DEFINITION
  | .ScalarTypeExtension => SCALAR_TYPE_EXTENSION
  | .ObjectTypeExtension => OBJECT_TYPE_EXTENSION
  | .InterfaceTypeExtension => INTERFACE_TYPE_EXTENSION
  | .UnionTypeExtension => UNION_TYPE_EXTENSION
  | .EnumTypeExtension => ENUM_TYPE_EXTENSION
  | .InputObjectTypeExtension => INPUT_OBJECT_TYPE_EXTENSION
  | .ImplementsInterfaces => IMPLEMENTS_INTERFACES
  | .FieldsDefinition => FIELDS_DEFINITION
  | .FieldDefinition => FIELD_DEFINITION
  | .ArgumentsDefinition => ARGUMENTS_DEFINITION
  | .InputValueDefinition => INPUT_VALUE_DEFINITION
  | .UnionMemberTypes => UNION_MEMBER_TYPES
  | .EnumValuesDefinition => ENUM_VALUES_DEFINITION
  | .EnumValueDefinition => ENUM_VALUE_DEFINITION
  | .InputFieldsDefinition => INPUT_FIELDS_DEFINITION
  | .DirectiveLocations => DIRECTIVE_LOCATIONS
  | .DirectiveLocation => DIRECTIVE_LOCATION
  | .ExecutableDirectiveLocation => EXECUTABLE_DIRECTIVE_LOCATION
  | .TypeSystemDirectiveLocation => TYPE_SYSTEM_DIRECTIVE_LOCATION

/-- The uniform generated `cast` of every concrete view (`nodes.rs`,
e.g. lines 745-751): wrap the node iff `can_cast(kind)`, which is
`kind == TAG`. -/
def concreteCast (v : ConcreteView) (n : Green) : Option Green :=
  if n.kindOf = viewKind v then some n else none

/-- `enum Definition` (`nodes.rs` lines 682-687): a sum over
`ExecutableDefinition`, `TypeSystemDefinition`, `TypeSystemExtension`,
each carrying its syntax node. -/
inductive DefinitionV where
  | ExecutableDefinition (n : Green)
  | TypeSystemDefinition (n : Green)
  | TypeSystemExtension (n : Green)

/-- `Definition::can_cast` (`nodes.rs` lines 1435-1440). -/
def DefinitionV.can_cast (k : SyntaxKind) : Bool :=
  match k with
  | EXECUTABLE_DEFINITION | TYPE_SYSTEM_DEFINITION | TYPE_SYSTEM_EXTENSION => true
  | _ => false

/-- The kind dispatch of `Definition::cast` (`nodes.rs` lines
1442-1456). -/
def DefinitionV.castAux (k : SyntaxKind) (n : Green) : Option DefinitionV :=
  match k with
  | EXECUTABLE_DEFINITION => some (.ExecutableDefinition n)
  | TYPE_SYSTEM_DEFINITION => some (.TypeSystemDefinition n)
  | TYPE_SYSTEM_EXTENSION => some (.TypeSystemExtension n)
  | _ => none

/-- `Definition::cast`. -/
def DefinitionV.cast (n : Green) : Option DefinitionV :=
  DefinitionV.castAux n.kindOf n

/-- `Definition::syntax` (`nodes.rs` lines 1457-1463). -/
def DefinitionV.synNode : DefinitionV → Green
  | .ExecutableDefinition n => n
  | .TypeSystemDefinition n => n
  | .TypeSystemExtension n => n

/-- `enum ExecutableDefinition` (`nodes.rs` lines 688-692). -/
inductive ExecutableDefinitionV where
  | OperationDefinition (n : Green)
  | FragmentDefinition (n : Green)

/-- `ExecutableDefinition::can_cast` (`nodes.rs` lines 1476-1481). -/
def ExecutableDefinitionV.can_cast (k : SyntaxKind) : Bool :=
  match k with
  | OPERATION_DEFINITION | FRAGMENT_DEFINITION => true
  | _ => false

/-- The kind dispatch of `ExecutableDefinition::cast`. -/
def ExecutableDefinitionV.castAux (k : SyntaxKind) (n : Green) : Option ExecutableDefinitionV :=
  match k with
  | OPERATION_DEFINITION => some (.OperationDefinition n)
  | FRAGMENT_DEFINITION => some (.FragmentDefinition n)
  | _ => none

/-- `ExecutableDefinition::cast`. -/
def ExecutableDefinitionV.cast (n : Green) : Option ExecutableDefinitionV :=
  ExecutableDefinitionV.castAux n.kindOf n

/-- `enum TypeSystemDefinition` (`nodes.rs` lines 693-698). -/
inductive TypeSystemDefinitionV where
  | SchemaDefinition (n : Green)
  | TypeDefinition (n : Green)
  | DirectiveDefinition (n : Green)

/-- `TypeSystemDefinition::can_cast` (`nodes.rs` lines 1516-1521). -/
def TypeSystemDefinitionV.can_cast (k : SyntaxKind) : Bool :=
  match k with
  | SCHEMA_DEFINITION | TYPE_DEFINITION | DIRECTIVE_DEFINITION => true
  | _ => false

/-- The kind dispatch of `TypeSystemDefinition::cast`. -/
def TypeSystemDefinitionV.castAux (k : SyntaxKind) (n : Green) : Option TypeSystemDefinitionV :=
  match k with
  | SCHEMA_DEFINITION => some (.SchemaDefinition n)
  | TYPE_DEFINITION => some (.TypeDefinition n)
  | DIRECTIVE_DEFINITION => some (.DirectiveDefinition n)
  | _ => none

/-- `TypeSystemDefinition::cast`. -/
def TypeSystemDefinitionV.cast (n : Green) : Option TypeSystemDefinitionV :=
  TypeSystemDefinitionV.castAux n.kindOf n

/-- `enum TypeSystemExtension` (`nodes.rs` lines 699-703). -/
inductive TypeSystemExtensionV where
  | SchemaExtension (n : Green)
  | TypeExtension (n : Green)

/-- `TypeSystemExtension::can_cast` (`nodes.rs` lines 1552-1557). -/
def TypeSystemExtensionV.can_cast (k : SyntaxKind) : Bool :=
  match k with
  | SCHEMA_EXTENSION | TYPE_EXTENSION => true
  | _ => false

/-- The kind dispatch of `TypeSystemExtension::cast`. -/
def TypeSystemExtensionV.castAux (k : SyntaxKind) (n : Green) : Option TypeSystemExtensionV :=
  match k with
  | SCHEMA_EXTENSION => some (.SchemaExtension n)
  | TYPE_EXTENSION => some (.TypeExtension n)
  | _ => none

/-- `TypeSystemExtension::cast`. -/
def TypeSystemExtensionV.cast (n : Green) : Option TypeSystemExtensionV :=
  TypeSystemExtensionV.castAux n.kindOf n

/-- `enum Selection` (`nodes.rs` lines 702-706). -/
inductive SelectionV where
  | Field (n : Green)
  | FragmentSpread (n : Green)
  | InlineFragment (n : Green)

/-- `Selection::can_cast` (`nodes.rs` lines 1583-1588). -/
def SelectionV.can_cast (k : SyntaxKind) : Bool :=
  match k with
  | FIELD | FRAGMENT_SPREAD | INLINE_FRAGMENT => true
  | _ => false

/-- The kind dispatch of `Selection::cast`. -/
def SelectionV.castAux (k : SyntaxKind) (n : Green) : Option SelectionV :=
  match k with
  | FIELD => some (.Field n)
  | FRAGMENT_SPREAD => some (.FragmentSpread n)
  | INLINE_FRAGMENT => some (.InlineFragment n)
  | _ => none

/-- `Selection::cast`. -/
def SelectionV.cast (n : Green) : Option SelectionV :=
  SelectionV.castAux n.kindOf n

/-- `enum Value` (`nodes.rs` lines 707-718). -/
inductive ValueV where
  | Variable (n : Green)
  | StringValue (n : Green)
  | FloatValue (n : Green)
  | IntValue (n : Green)
  | BooleanValue (n : Green)
  | NullValue (n : Green)
  | EnumValue (n : Green)
  | ListValue (n : Green)
  | ObjectValue (n : Green)

/-- `Value::can_cast` (`nodes.rs` lines 1634-1640). -/
def ValueV.can_cast (k : SyntaxKind) : Bool :=
  match k with
  | VARIABLE | STRING_VALUE | FLOAT_VALUE | INT_VALUE | BOOLEAN_VALUE | NULL_VALUE
  | ENUM_VALUE | LIST_VALUE | OBJECT_VALUE => true
  | _ => false

/-- The kind dispatch of `Value::cast`. -/
def ValueV.castAux (k : SyntaxKind) (n : Green) : Option ValueV :=
  match k with
  | VARIABLE => some (.Variable n)
  | STRING_VALUE => some (.StringValue n)
  | FLOAT_VALUE => some (.FloatValue n)
  | INT_VALUE => some (.IntValue n)
  | BOOLEAN_VALUE => some (.BooleanValue n)
  | NULL_VALUE => some (.NullValue n)
  | ENUM_VALUE => some (.EnumValue n)
  | LIST_VALUE => some (.ListValue n)
  | OBJECT_VALUE => some (.ObjectValue n)
  | _ => none

/-- `Value::cast`. -/
def ValueV.cast (n : Green) : Option ValueV :=
  ValueV.castAux n.kindOf n

/-- `enum Type` (`nodes.rs` lines 719-724). -/
inductive TypeV where
  | NamedType (n : Green)
  | ListType (n : Green)
  | NonNullType (n : Green)

/-- `Type::can_cast` (`nodes.rs` lines 1680-1685). -/
def TypeV.can_cast (k : SyntaxKind) : Bool :=
  match k with
  | NAMED_TYPE | LIST_TYPE | NON_NULL_TYPE => true
  | _ => false

/-- The kind dispatch of `Type::cast`. -/
def TypeV.castAux (k : SyntaxKind) (n : Green) : Option TypeV :=
  match k with
  | NAMED_TYPE => some (.NamedType n)
  | LIST_TYPE => some (.ListType n)
  | NON_NULL_TYPE => some (.NonNullType n)
  | _ => none

/-- `Type::cast`. -/
def TypeV.cast (n : Green) : Option TypeV :=
  TypeV.castAux n.kindOf n

/-- `enum TypeDefinition` (`nodes.rs` lines 725-733). -/
inductive TypeDefinitionV where
  | ScalarTypeDefinition (n : Green)
  | ObjectTypeDefinition (n : Green)
  | InterfaceTypeDefinition (n : Green)
  | UnionTypeDefinition (n : Green)
  | EnumTypeDefinition (n : Green)
  | InputObjectTypeDefinition (n : Green)

/-- `TypeDefinition::can_cast` (`nodes.rs` lines 1732-1742). -/
def TypeDefinitionV.can_cast (k : SyntaxKind) : Bool :=
  match k with
  | SCALAR_TYPE_DEFINITION | OBJECT_TYPE_DEFINITION | INTERFACE_TYPE_DEFINITION
  | UNION_TYPE_DEFINITION | ENUM_TYPE_DEFINITION | INPUT_OBJECT_TYPE_DEFINITION => true
  | _ => false

/-- The kind dispatch of `TypeDefinition::cast`. -/
def TypeDefinitionV.castAux (k : SyntaxKind) (n : Green) : Option TypeDefinitionV :=
  match k with
  | SCALAR_TYPE_DEFINITION => some (.ScalarTypeDefinition n)
  | OBJECT_TYPE_DEFINITION => some (.ObjectTypeDefinition n)
  | INTERFACE_TYPE_DEFINITION => some (.InterfaceTypeDefinition n)
  | UNION_TYPE_DEFINITION => some (.UnionTypeDefinition n)
  | ENUM_TYPE_DEFINITION => some (.EnumTypeDefinition n)
  | INPUT_OBJECT_TYPE_DEFINITION => some (.InputObjectTypeDefinition n)
  | _ => none

/-- `TypeDefinition::cast`. -/
def TypeDefinitionV.cast (n : Green) : Option TypeDefinitionV :=
  TypeDefinitionV.castAux n.kindOf n

/-- `enum TypeExtension` (`nodes.rs` lines 734-742). -/
inductive TypeExtensionV where
  | ScalarTypeExtension (n : Green)
  | ObjectTypeExtension (n : Green)
  | InterfaceTypeExtension (n : Green)
  | UnionTypeExtension (n : Green)
  | EnumTypeExtension (n : Green)
  | InputObjectTypeExtension (n : Green)

/-- `TypeExtension::can_cast` (`nodes.rs` lines 1801-1811). -/
def TypeExtensionV.can_cast (k : SyntaxKind) : Bool :=
  match k with
  | SCALAR_TYPE_EXTENSION | OBJECT_TYPE_EXTENSION | INTERFACE_TYPE_EXTENSION
  | UNION_TYPE_EXTENSION | ENUM_TYPE_EXTENSION | INPUT_OBJECT_TYPE_EXTENSION => true
  | _ => false

/-- The kind dispatch of `TypeExtension::cast`. -/
def TypeExtensionV.castAux (k : SyntaxKind) (n : Green) : Option TypeExtensionV :=
  match k with
  | SCALAR_TYPE_EXTENSION => some (.ScalarTypeExtension n)
  | OBJECT_TYPE_EXTENSION => some (.ObjectTypeExtension n)
  | INTERFACE_TYPE_EXTENSION => some (.InterfaceTypeExtension n)
  | UNION_TYPE_EXTENSION => some (.UnionTypeExtension n)
  | ENUM_TYPE_EXTENSION => some (.EnumTypeExtension n)
  | INPUT_OBJECT_TYPE_EXTENSION => some (.InputObjectTypeExtension n)
  | _ => none

/-- `TypeExtension::cast`. -/
def TypeExtensionV.cast (n : Green) : Option TypeExtensionV :=
  TypeExtensionV.castAux n.kindOf n

/-- Modelled from the spec (section 6 *Display*): a syntax node renders
as the exact source text its subtree covers. The rowan `Display`
implementation for nodes is not among the provided sources. -/
def renderNode (n : Green) : Str :=
  Green.termText n

/-- `Display for Definition` (`nodes.rs` lines 1845-1849): delegate to
the syntax node's rendering. -/
def DefinitionV.render (v : DefinitionV) : Str :=
  renderNode v.synNode

/-- `Document::definitions` (`nodes.rs` lines 19-21, via
`support::children`): the child nodes castable to `Definition`. -/
def Document.definitions (n : Green) : List DefinitionV :=
  (childNodesOf n).filterMap DefinitionV.cast

/-- Concatenation of a list of texts. -/
def joinTexts (l : List Str) : Str :=
  l.foldr (fun t acc => t ++ acc) []

/-! ## Top-level tree shape

The top-level dispatch loop only ever invokes productions whose body
opens a single node of a concrete definition kind, so every child of the
`DOCUMENT` node is an internal node carrying one of those kinds. -/

/-- The node kinds the top-level productions open (one per dispatch arm
of `Parser::parse`). -/
def topKinds : List SyntaxKind :=
  [FRAGMENT_DEFINITION, DIRECTIVE_DEFINITION, SCHEMA_DEFINITION, SCALAR_TYPE_DEFINITION,
   OBJECT_TYPE_DEFINITION, INTERFACE_TYPE_DEFINITION, UNION_TYPE_DEFINITION,
   ENUM_TYPE_DEFINITION, INPUT_OBJECT_TYPE_DEFINITION, OPERATION_DEFINITION]

/-- Traces produced at the top level: a sequence of complete nodes, each
of a dispatched definition kind. -/
inductive TopD : List Event → Prop where
  | nil : TopD []
  | seg {inner rest : List Event} (k : SyntaxKind) :
      k ∈ topKinds → Bal inner → TopD rest →
      TopD ((Event.startNode k :: inner ++ [Event.finishNode]) ++ rest)

theorem TopD_append {a b : List Event} (ha : TopD a) (hb : TopD b) : TopD (a ++ b) := by
  induction ha with
  | nil => simpa using hb
  | seg k hk hbal hrest ih =>
      rw [List.append_assoc]
      exact TopD.seg k hk hbal ih

theorem dispatch_top (d : Str) (q : ProdName) (h : dispatchProd d = some q) :
    ∃ K body, prodBody q = Act.node K body ∧ K ∈ topKinds := by
  unfold dispatchProd at h
  split at h
  · cases h; exact ⟨_, _, rfl, by decide⟩
  split at h
  · cases h; exact ⟨_, _, rfl, by decide⟩
  split at h
  · cases h; exact ⟨_, _, rfl, by decide⟩
  split at h
  · cases h; exact ⟨_, _, rfl, by decide⟩
  split at h
  · cases h; exact ⟨_, _, rfl, by decide⟩
  split at h
  · cases h; exact ⟨_, _, rfl, by decide⟩
  split at h
  · cases h; exact ⟨_, _, rfl, by decide⟩
  split at h
  · cases h; exact ⟨_, _, rfl, by decide⟩
  split at h
  · cases h; exact ⟨_, _, rfl, by decide⟩
  split at h
  · cases h; exact ⟨_, _, rfl, by decide⟩
  · cases h

theorem callP_top (q : ProdName) (hEx : ∃ K body, prodBody q = Act.node K body ∧ K ∈ topKinds) :
    ∀ (fuel : Nat) (p : PState),
      ∃ dlt, (interp fuel (Act.callP q) p).events = p.events ++ dlt ∧ TopD dlt := by
  obtain ⟨K, body, hpb, hK⟩ := hEx
  intro fuel p
  cases fuel with
  | zero =>
      refine ⟨[], ?_, TopD.nil⟩
      simp [interp]
  | succ f =>
      cases f with
      | zero =>
          refine ⟨[], ?_, TopD.nil⟩
          simp [interp, interp1, hpb]
      | succ f2 =>
          obtain ⟨inner, e, hev, hbal, ht, he⟩ :=
            interp1_ext (interp f2) (interp_ext f2) body (Parser.start_node K p)
          refine ⟨Event.startNode K :: inner ++ [Event.finishNode], ?_, ?_⟩
          · have hstep : interp (f2 + 1 + 1) (Act.callP q) p =
                Parser.finish_node (interp1 (interp f2) body (Parser.start_node K p)) := by
              simp [interp, interp1, hpb]
            rw [hstep]
            show (interp1 (interp f2) body (Parser.start_node K p)).events ++
              [Event.finishNode] = p.events ++ (Event.startNode K :: inner ++ [Event.finishNode])
            rw [hev]
            simp [Parser.start_node]
          · have hseg := TopD.seg K hK hbal TopD.nil
            rwa [List.append_nil] at hseg

theorem docLoop_top : ∀ (fuel : Nat) (p : PState),
    ∃ dlt, (docLoop fuel p).events = p.events ++ dlt ∧ TopD dlt := by
  intro fuel
  induction fuel with
  | zero =>
      intro p
      exact ⟨[], by simp [docLoop], TopD.nil⟩
  | succ f ih =>
      intro p
      rcases hpd : Parser.peek_data p with _ | dd
      · refine ⟨[], ?_, TopD.nil⟩
        simp [docLoop, hpd]
      · rcases hq : dispatchProd dd with _ | q
        · refine ⟨[], ?_, TopD.nil⟩
          simp [docLoop, hpd, hq]
        · obtain ⟨d1, h1, ht1⟩ := callP_top q (dispatch_top dd q hq)
            (100 * (p.tokens.length + 1)) p
          obtain ⟨d2, h2, ht2⟩ := ih (runProd p q)
          refine ⟨d1 ++ d2, ?_, TopD_append ht1 ht2⟩
          simp only [docLoop, hpd, hq]
          rw [h2]
          show (runProd p q).events ++ d2 = p.events ++ (d1 ++ d2)
          rw [show (runProd p q).events = p.events ++ d1 from h1]
          simp

theorem topBuild {dlt : List Event} (hd : TopD dlt) :
    ∀ (cs roots : List Green),
      ∃ F, List.foldl buildStep ([(DOCUMENT, cs)], roots) dlt = ([(DOCUMENT, cs ++ F)], roots) ∧
        ∀ g ∈ F, ∃ K children, g = Green.node K children ∧ K ∈ topKinds := by
  induction hd with
  | nil =>
      intro cs roots
      exact ⟨[], by simp, by simp⟩
  | @seg inner rest k hk hbal hrest ih =>
      intro cs roots
      obtain ⟨Fi, hFi, hTi⟩ := buildFold hbal k [] [(DOCUMENT, cs)] roots
      obtain ⟨Fr, hFr, hMr⟩ := ih (cs ++ [Green.node k Fi]) roots
      refine ⟨Green.node k Fi :: Fr, ?_, ?_⟩
      · rw [List.foldl_append, List.foldl_append]
        simp only [List.foldl_cons, buildStep_start]
        rw [hFi]
        simp only [List.nil_append, List.foldl_nil, buildStep_fin2]
        rw [hFr, List.append_assoc]
        rfl
      · intro g hg
        rcases List.mem_cons.mp hg with hg | hg
        · exact ⟨k, Fi, hg, hk⟩
        · exact hMr g hg

/-- The root of a parsed tree is a `DOCUMENT` node whose children are
all internal nodes of dispatched definition kinds. -/
theorem parse_top_root (input : Str) :
    ∃ F, (Parser.parse input).root = Green.node DOCUMENT F ∧
      ∀ g ∈ F, ∃ K children, g = Green.node K children ∧ K ∈ topKinds := by
  obtain ⟨dlt, hdl, htop⟩ := docLoop_top ((Parser.new input).tokens.length + 1)
      (Parser.start_node DOCUMENT (Parser.new input))
  obtain ⟨F, hF, hM⟩ := topBuild htop [] []
  refine ⟨F, ?_, hM⟩
  show buildRoot (Parser.parseState input).events = Green.node DOCUMENT F
  have hev : (Parser.parseState input).events =
      Event.startNode DOCUMENT :: dlt ++ [Event.finishNode] := by
    show (docLoop ((Parser.new input).tokens.length + 1)
        (Parser.start_node DOCUMENT (Parser.new input))).events ++ [Event.finishNode] = _
    rw [hdl]
    rfl
  rw [hev]
  have h1 : buildRun (Event.startNode DOCUMENT :: dlt ++ [Event.finishNode]) =
      ([], [Green.node DOCUMENT F]) := by
    simp only [buildRun]
    rw [List.foldl_append]
    simp only [List.foldl_cons, buildStep_start]
    rw [hF]
    simp only [List.foldl_nil, List.nil_append, buildStep_fin1]
  simp only [buildRoot, h1]

/-- No child of a parsed `DOCUMENT` carries one of the abstract kinds
`Definition::cast` matches on, so the definitions iterator is empty. -/
theorem parse_definitions_empty (input : Str) :
    Document.definitions (Parser.parse input).root = [] := by
  obtain ⟨F, hroot, hM⟩ := parse_top_root input
  rw [hroot]
  show (childNodesOf (Green.node DOCUMENT F)).filterMap DefinitionV.cast = []
  rw [List.filterMap_eq_nil_iff]
  intro a ha
  have haF : a ∈ F := by
    have h2 : a ∈ F.filter fun c =>
        match c with
        | .node _ _ => true
        | .leaf _ _ => false := ha
    exact (List.mem_filter.mp h2).1
  obtain ⟨K, children, heq, hK⟩ := hM a haF
  subst heq
  show DefinitionV.castAux K (Green.node K children) = none
  fin_cases hK <;> rfl

/-- Kinds of the child nodes of a green node, in order. -/
def childNodeKinds (n : Green) : List SyntaxKind :=
  (childNodesOf n).map Green.kindOf

/-- Navigate to the child node at a path of child-node indices. -/
def nodeAt : Green → List Nat → Option Green
  | n, [] => some n
  | n, i :: rest =>
      match (childNodesOf n).get? i with
      | some c => nodeAt c rest
      | none => none

/-- Iterated `Parser::pop`: the state after removing `m` tokens, or
`none` if the buffer runs out (a panic in the Rust driver). -/
def popN : PState → Nat → Option PState
  | p, 0 => some p
  | p, m + 1 =>
      match Parser.pop p with
      | some tp => popN tp.2 m
      | none => none

theorem popN_drop : ∀ (m : Nat) (p : PState), m ≤ p.tokens.length →
    ∃ p', popN p m = some p' ∧ p'.tokens = p.tokens.drop m := by
  intro m
  induction m with
  | zero =>
      intro p h
      exact ⟨p, rfl, by simp⟩
  | succ n ih =>
      intro p h
      cases hpt : p.tokens with
      | nil => rw [hpt] at h; simp at h
      | cons t ts =>
          have hpop : Parser.pop p = some (t, { p with tokens := ts }) := by
            simp [Parser.pop, hpt]
          have hlen : n ≤ ts.length := by
            rw [hpt] at h
            simpa using h
          obtain ⟨p', hp', hd⟩ := ih { p with tokens := ts } hlen
          refine ⟨p', ?_, ?_⟩
          · simp [popN, hpop, hp']
          · rw [hd]
            simp

/-- The sum views of `nodes.rs` (section 4.7 of the spec). -/
inductive SumView where
  | Definition
  | ExecutableDefinition
  | TypeSystemDefinition
  | TypeSystemExtension
  | Selection
  | Value
  | Ty
  | TypeDefinition
  | TypeExtension
deriving DecidableEq, Repr

/-- Whether the sum view's `cast` succeeds on a node (dispatch over the
nine generated `cast` implementations). -/
def sumCastSome : SumView → Green → Bool
  | .Definition, n => (DefinitionV.cast n).isSome
  | .ExecutableDefinition, n => (ExecutableDefinitionV.cast n).isSome
  | .TypeSystemDefinition, n => (TypeSystemDefinitionV.cast n).isSome
  | .TypeSystemExtension, n => (TypeSystemExtensionV.cast n).isSome
  | .Selection, n => (SelectionV.cast n).isSome
  | .Value, n => (ValueV.cast n).isSome
  | .Ty, n => (TypeV.cast n).isSome
  | .TypeDefinition, n => (TypeDefinitionV.cast n).isSome
  | .TypeExtension, n => (TypeExtensionV.cast n).isSome

/-- The tags of each sum's immediate variants as fixed by the grammar
manifest, where a variant that is itself a sum contributes its own
abstract tag (`EXECUTABLE_DEFINITION`, `TYPE_SYSTEM_DEFINITION`,
`TYPE_SYSTEM_EXTENSION`, `TYPE_DEFINITION`, `TYPE_EXTENSION`) rather
than its flattened concrete kinds. -/
def sumVariants : SumView → List SyntaxKind
  | .Definition => [EXECUTABLE_DEFINITION, TYPE_SYSTEM_DEFINITION, TYPE_SYSTEM_EXTENSION]
  | .ExecutableDefinition => [OPERATION_DEFINITION, FRAGMENT_DEFINITION]
  | .TypeSystemDefinition => [SCHEMA_DEFINITION, TYPE_DEFINITION, DIRECTIVE_DEFINITION]
  | .TypeSystemExtension => [SCHEMA_EXTENSION, TYPE_EXTENSION]
  | .Selection => [FIELD, FRAGMENT_SPREAD, INLINE_FRAGMENT]
  | .Value => [VARIABLE, STRING_VALUE, FLOAT_VALUE, INT_VALUE, BOOLEAN_VALUE, NULL_VALUE,
      ENUM_VALUE, LIST_VALUE, OBJECT_VALUE]
  | .Ty => [NAMED_TYPE, LIST_TYPE, NON_NULL_TYPE]
  | .TypeDefinition => [SCALAR_TYPE_DEFINITION, OBJECT_TYPE_DEFINITION,
      INTERFACE_TYPE_DEFINITION, UNION_TYPE_DEFINITION, ENUM_TYPE_DEFINITION,
      INPUT_OBJECT_TYPE_DEFINITION]
  | .TypeExtension => [SCALAR_TYPE_EXTENSION, OBJECT_TYPE_EXTENSION,
      INTERFACE_TYPE_EXTENSION, UNION_TYPE_EXTENSION, ENUM_TYPE_EXTENSION,
      INPUT_OBJECT_TYPE_EXTENSION]

/-- The concrete nonterminal kinds underlying `Definition` when its
variants are flattened through the nested sums, as the grammar fixes
them (section 4.7: sums are "tagged unions over concrete
nonterminals"). -/
def definitionConcreteKinds : List SyntaxKind :=
  [OPERATION_DEFINITION, FRAGMENT_DEFINITION, SCHEMA_DEFINITION, DIRECTIVE_DEFINITION,
   SCALAR_TYPE_DEFINITION, OBJECT_TYPE_DEFINITION, INTERFACE_TYPE_DEFINITION,
   UNION_TYPE_DEFINITION, ENUM_TYPE_DEFINITION, INPUT_OBJECT_TYPE_DEFINITION,
   SCHEMA_EXTENSION, SCALAR_TYPE_EXTENSION, OBJECT_TYPE_EXTENSION,
   INTERFACE_TYPE_EXTENSION, UNION_TYPE_EXTENSION, ENUM_TYPE_EXTENSION,
   INPUT_OBJECT_TYPE_EXTENSION]

theorem defCastAux_mem (k : SyntaxKind) (n : Green) :
    (DefinitionV.castAux k n).isSome = decide (k ∈ sumVariants .Definition) := by
  cases k <;> rfl

theorem execCastAux_mem (k : SyntaxKind) (n : Green) :
    (ExecutableDefinitionV.castAux k n).isSome =
      decide (k ∈ sumVariants .ExecutableDefinition) := by
  cases k <;> rfl

theorem tsdCastAux_mem (k : SyntaxKind) (n : Green) :
    (TypeSystemDefinitionV.castAux k n).isSome =
      decide (k ∈ sumVariants .TypeSystemDefinition) := by
  cases k <;> rfl

theorem tseCastAux_mem (k : SyntaxKind) (n : Green) :
    (TypeSystemExtensionV.castAux k n).isSome =
      decide (k ∈ sumVariants .TypeSystemExtension) := by
  cases k <;> rfl

theorem selCastAux_mem (k : SyntaxKind) (n : Green) :
    (SelectionV.castAux k n).isSome = decide (k ∈ sumVariants .Selection) := by
  cases k <;> rfl

theorem valCastAux_mem (k : SyntaxKind) (n : Green) :
    (ValueV.castAux k n).isSome = decide (k ∈ sumVariants .Value) := by
  cases k <;> rfl

theorem tyCastAux_mem (k : SyntaxKind) (n : Green) :
    (TypeV.castAux k n).isSome = decide (k ∈ sumVariants .Ty) := by
  cases k <;> rfl

theorem tdCastAux_mem (k : SyntaxKind) (n : Green) :
    (TypeDefinitionV.castAux k n).isSome = decide (k ∈ sumVariants .TypeDefinition) := by
  cases k <;> rfl

theorem teCastAux_mem (k : SyntaxKind) (n : Green) :
    (TypeExtensionV.castAux k n).isSome = decide (k ∈ sumVariants .TypeExtension) := by
  cases k <;> rfl

/-! ## Claims -/

set_option maxRecDepth 10000

/-- C1 (counterexample): losslessness fails as stated. For the input
`"x"` the top-level dispatch loop stops at the unrecognized identifier
without consuming it, so the tree's terminal text is empty and does not
reproduce the input. -/
theorem c1_lossless_counterexample :
    Green.termText (Parser.parse ['x']).root ≠ ['x'] := by
  decide

/-- C1 (amended): concatenating the terminal texts of `parse(s).root`
yields the texts of exactly the tokens the parser consumed: it equals
the full token text of the lexer output minus the unconsumed trailing
tokens; spans the lexer reported as lexical errors are additionally
absent from the token text (the lexer output as a whole, tokens and
error spans together, reproduces `s` byte for byte). -/
theorem c1_lossless_amended (s : Str) :
    Green.termText (Parser.parse s).root ++ tokensText (Parser.parseState s).tokens =
      tokensText (lexTokens s) ∧
    unitsText (lexAll s) = s := by
  refine ⟨?_, lexAll_text s⟩
  obtain ⟨F, hroot, htext⟩ := parse_root s
  rw [hroot]
  show Green.termTextList F ++ tokensText (Parser.parseState s).tokens = tokensText (lexTokens s)
  exact htext

/-- C2 (counterexample): for the input `"%~"` the lexer reports two
errors in source order (offsets 0 then 1), but the `SyntaxTree` error
sequence carries them in reverse source order (offset 1 then 0), because
`Parser::new` reverses the lexical error vector (`errors.reverse()`,
`mod.rs` line 67). -/
theorem c2_error_order_counterexample :
    (Parser.parse ['%', '~']).errors =
      [{ message := "unexpected character", offset := 1, length := 1 },
       { message := "unexpected character", offset := 0, length := 1 }] ∧
    lexErrors ['%', '~'] =
      [{ message := "unexpected character", offset := 0, length := 1 },
       { message := "unexpected character", offset := 1, length := 1 }] ∧
    (Parser.parse ['%', '~']).errors ≠ lexErrors ['%', '~'] := by
  decide

/-- C2 (amended): the error sequence of the returned `SyntaxTree`
consists of all lexical errors first, in reverse source order (the
`errors.reverse()` in `Parser::new`), followed by the syntactic errors
in the order the parser pushed them (the driver only ever appends via
`push_err`). -/
theorem c2_error_order_amended (s : Str) :
    ∃ e, (Parser.parse s).errors = (lexErrors s).reverse ++ e := by
  obtain ⟨d, e, hb, hev, ht, he⟩ := parseState_shape s
  exact ⟨e, he⟩

/-- C3 (counterexample): after the top-level loop stops at the
unrecognized token `x`, non-whitespace bytes remain unconsumed, yet no
error is produced: the `_ => break` arm of `Parser::parse` pushes
nothing. -/
theorem c3_unknown_toplevel_counterexample :
    (Parser.parseState ['x']).tokens =
      [{ kind := TokenKind.ident, text := ['x'], offset := 0 }] ∧
    (Parser.parse ['x']).errors = [] := by
  decide

/-- C3 (amended): when the next token at top level matches none of the
recognized leading keywords and is not `{`, parse stops without
consuming further tokens, the `DOCUMENT` node terminates (here it is
empty, the stop happening at the first token), the remaining tokens are
left outside the `DOCUMENT` node, and no error is produced regardless of
whether the remaining bytes are whitespace. -/
theorem c3_unknown_toplevel_amended (s : Str) (t : Token) (ts : List Token)
    (hlex : lexTokens s = t :: ts) (hdisp : dispatchProd t.text = none) :
    (Parser.parse s).root = Green.node DOCUMENT [] ∧
    (Parser.parse s).errors = (lexErrors s).reverse ∧
    (Parser.parseState s).tokens = t :: ts := by
  have hpd : Parser.peek_data (Parser.start_node DOCUMENT (Parser.new s)) = some t.text := by
    show (Parser.new s).tokens.head?.map (·.text) = some t.text
    rw [new_tokens, hlex]
    rfl
  have hloop : docLoop ((Parser.new s).tokens.length + 1)
      (Parser.start_node DOCUMENT (Parser.new s)) =
      Parser.start_node DOCUMENT (Parser.new s) := by
    simp [docLoop, hpd, hdisp]
  refine ⟨?_, ?_, ?_⟩
  · show buildRoot (Parser.parseState s).events = Green.node DOCUMENT []
    have hev : (Parser.parseState s).events = [Event.startNode DOCUMENT, Event.finishNode] := by
      show (docLoop ((Parser.new s).tokens.length + 1)
          (Parser.start_node DOCUMENT (Parser.new s))).events ++ [Event.finishNode] = _
      rw [hloop]
      rfl
    rw [hev]
    have hbr : buildRun [Event.startNode DOCUMENT, Event.finishNode] =
        ([], [Green.node DOCUMENT []]) := by
      show buildStep (buildStep ([], []) (Event.startNode DOCUMENT)) Event.finishNode = _
      rw [buildStep_start, buildStep_fin1]
      simp
    simp [buildRoot, hbr]
  · show (docLoop ((Parser.new s).tokens.length + 1)
        (Parser.start_node DOCUMENT (Parser.new s))).errors = (lexErrors s).reverse
    rw [hloop]
    rfl
  · show (docLoop ((Parser.new s).tokens.length + 1)
        (Parser.start_node DOCUMENT (Parser.new s))).tokens = t :: ts
    rw [hloop]
    show (Parser.new s).tokens = t :: ts
    rw [new_tokens, hlex]

/-- C3 (witness): the amended claim at the concrete input `"x"`. -/
theorem c3_unknown_toplevel_witness :
    (Parser.parse ['x']).root = Green.node DOCUMENT [] ∧
    (Parser.parse ['x']).errors = (lexErrors ['x']).reverse ∧
    (Parser.parseState ['x']).tokens =
      [{ kind := TokenKind.ident, text := ['x'], offset := 0 }] :=
  c3_unknown_toplevel_amended ['x'] { kind := TokenKind.ident, text := ['x'], offset := 0 } []
    (by decide) (by decide)

/-- C4 (counterexample): for a node of kind `OPERATION_DEFINITION`,
`Definition::cast` returns `None`, although `OPERATION_DEFINITION` is a
concrete nonterminal kind underlying `Definition`'s variants as the
grammar fixes them: the generated sum matches the abstract variant tag
`EXECUTABLE_DEFINITION`, not the flattened concrete kinds. -/
theorem c4_cast_counterexample :
    ¬ (((DefinitionV.cast (Green.node OPERATION_DEFINITION [])).isSome = true) ↔
      Green.kindOf (Green.node OPERATION_DEFINITION []) ∈ definitionConcreteKinds) := by
  decide

/-- C4 (amended): every concrete typed view's `cast(n)` succeeds iff
`n.kind` equals the view's nonterminal tag; every sum view's `cast(n)`
succeeds iff `n.kind` is one of the tags of the sum's immediate
variants, where a variant that is itself a sum is represented by its own
abstract tag rather than its flattened concrete kinds. -/
theorem c4_cast_amended :
    (∀ (v : ConcreteView) (n : Green),
      (concreteCast v n).isSome = true ↔ n.kindOf = viewKind v) ∧
    (∀ (sv : SumView) (n : Green), sumCastSome sv n = true ↔ n.kindOf ∈ sumVariants sv) := by
  constructor
  · intro v n
    simp only [concreteCast]
    split
    · next h => simp [h]
    · next h => simp [h]
  · intro sv n
    cases sv
    all_goals
      simp [sumCastSome, DefinitionV.cast, ExecutableDefinitionV.cast,
        TypeSystemDefinitionV.cast, TypeSystemExtensionV.cast, SelectionV.cast, ValueV.cast,
        TypeV.cast, TypeDefinitionV.cast, TypeExtensionV.cast, defCastAux_mem, execCastAux_mem,
        tsdCastAux_mem, tseCastAux_mem, selCastAux_mem, valCastAux_mem, tyCastAux_mem,
        tdCastAux_mem, teCastAux_mem]

/-- C5 (counterexample): the parsed tree of `"{ field }"` has one
definition node (an `OPERATION_DEFINITION` child of `DOCUMENT`), yet
concatenating the `Display` renderings of `Document::definitions()`
does not reproduce the input: `Definition::cast` rejects the concrete
kind, so the iterator is empty. -/
theorem c5_display_counterexample :
    childNodeKinds (Parser.parse ['{', ' ', 'f', 'i', 'e', 'l', 'd', ' ', '}']).root =
      [OPERATION_DEFINITION] ∧
    joinTexts ((Document.definitions
        (Parser.parse ['{', ' ', 'f', 'i', 'e', 'l', 'd', ' ', '}']).root).map
      DefinitionV.render) ≠ ['{', ' ', 'f', 'i', 'e', 'l', 'd', ' ', '}'] := by
  decide

/-- C5 (amended): every typed view's `Display` rendering equals the
exact source text its subtree covers (it renders the syntax node, which
prints the subtree's terminal text); but `Document::definitions()`
accepts only children of the abstract kinds `EXECUTABLE_DEFINITION`,
`TYPE_SYSTEM_DEFINITION` and `TYPE_SYSTEM_EXTENSION`, while the parser
attaches concrete definition kinds directly under `DOCUMENT`, so for
every input the definitions iterator of the parsed document is empty
and the concatenation of the rendered definitions is empty rather than
the input. -/
theorem c5_display_amended (s : Str) :
    (∀ v : DefinitionV, DefinitionV.render v = Green.termText (DefinitionV.synNode v)) ∧
    Document.definitions (Parser.parse s).root = [] ∧
    joinTexts ((Document.definitions (Parser.parse s).root).map DefinitionV.render) = [] := by
  refine ⟨fun v => rfl, parse_definitions_empty s, ?_⟩
  rw [parse_definitions_empty s]
  rfl

/-- C6: in every execution of `parse`, the builder event trace is
balanced: each `start_node` is paired with exactly one `finish_node`,
properly nested (the `NodeGuard` closes its node exactly once on every
exit path), and the builder stack finishes with exactly one root, the
`DOCUMENT` node. -/
theorem c6_balanced_construction (s : Str) :
    Bal (Parser.parseState s).events ∧
    ∃ F, buildRun (Parser.parseState s).events = ([], [Green.node DOCUMENT F]) := by
  obtain ⟨d, e, hb, hev, ht, he⟩ := parseState_shape s
  constructor
  · rw [hev]
    exact Bal.wrap DOCUMENT hb
  · obtain ⟨F, hF, hT⟩ := buildFold hb DOCUMENT [] [] []
    refine ⟨F, ?_⟩
    rw [hev]
    simp only [buildRun]
    rw [List.foldl_append]
    simp only [List.foldl_cons, buildStep_start]
    rw [hF]
    simp only [List.foldl_nil, List.nil_append, buildStep_fin1]

/-- C7: parsing `"{ field }"` produces a root `DOCUMENT` containing
exactly one `OPERATION_DEFINITION`, which contains a `SELECTION_SET`
with a single `FIELD` whose `Name` text is `field`; the error list is
empty; and the tree re-renders to the input exactly. -/
theorem c7_anonymous_query :
    (Parser.parse ['{', ' ', 'f', 'i', 'e', 'l', 'd', ' ', '}']).errors = [] ∧
    Green.kindOf (Parser.parse ['{', ' ', 'f', 'i', 'e', 'l', 'd', ' ', '}']).root = DOCUMENT ∧
    childNodeKinds (Parser.parse ['{', ' ', 'f', 'i', 'e', 'l', 'd', ' ', '}']).root =
      [OPERATION_DEFINITION] ∧
    (nodeAt (Parser.parse ['{', ' ', 'f', 'i', 'e', 'l', 'd', ' ', '}']).root [0]).map
      childNodeKinds = some [SELECTION_SET] ∧
    (nodeAt (Parser.parse ['{', ' ', 'f', 'i', 'e', 'l', 'd', ' ', '}']).root [0, 0]).map
      childNodeKinds = some [FIELD] ∧
    (nodeAt (Parser.parse ['{', ' ', 'f', 'i', 'e', 'l', 'd', ' ', '}']).root [0, 0, 0]).map
      childNodeKinds = some [NAME] ∧
    (nodeAt (Parser.parse ['{', ' ', 'f', 'i', 'e', 'l', 'd', ' ', '}']).root [0, 0, 0, 0]).map
      Green.termText = some ['f', 'i', 'e', 'l', 'd'] ∧
    Green.termText (Parser.parse ['{', ' ', 'f', 'i', 'e', 'l', 'd', ' ', '}']).root =
      ['{', ' ', 'f', 'i', 'e', 'l', 'd', ' ', '}'] := by
  decide

/-- C8: parsing is deterministic. The embedded pipeline is a pure
function of the input: two runs of `Parser::new(s).parse()` yield
structurally identical trees and identical error sequences. -/
theorem c8_determinism (s : Str) :
    (Parser.parse s).root = (Parser.parse s).root ∧
    (Parser.parse s).errors = (Parser.parse s).errors :=
  ⟨rfl, rfl⟩

/-- C9: `peek_n(k)` returns the kind of the kth upcoming non-consumed
token (1-based): it equals `peek` after `k - 1` pops; and `peek` behaves
as `peek_n(1)`. The embedded `peek`/`peek_n` take the state immutably
and return only the kind, so no parser state is mutated. -/
theorem c9_peek_n (p : PState) (k : Nat) (h1 : 1 ≤ k) (h2 : k ≤ p.tokens.length) :
    (∃ p', popN p (k - 1) = some p' ∧ Parser.peek_n p k = Parser.peek p') ∧
    Parser.peek p = Parser.peek_n p 1 := by
  constructor
  · obtain ⟨p', hp', hd⟩ := popN_drop (k - 1) p (by omega)
    refine ⟨p', hp', ?_⟩
    show (p.tokens.get? (k - 1)).map (·.kind) = p'.tokens.head?.map (·.kind)
    rw [hd, List.head?_drop, List.get?_eq_getElem?]
  · show p.tokens.head?.map (·.kind) = (p.tokens.get? (1 - 1)).map (·.kind)
    rw [show (1 : Nat) - 1 = 0 from rfl, List.get?_eq_getElem?, List.head?_eq_getElem?]

/-- C9 (witness): the peek/pop relation at a concrete two-token state
with `k = 2`. -/
theorem c9_peek_n_witness :
    (∃ p', popN ⟨[⟨TokenKind.lCurly, ['{'], 0⟩, ⟨TokenKind.ident, ['a'], 1⟩], [], [], 2⟩
        (2 - 1) = some p' ∧
      Parser.peek_n ⟨[⟨TokenKind.lCurly, ['{'], 0⟩, ⟨TokenKind.ident, ['a'], 1⟩], [], [], 2⟩ 2 =
        Parser.peek p') ∧
    Parser.peek ⟨[⟨TokenKind.lCurly, ['{'], 0⟩, ⟨TokenKind.ident, ['a'], 1⟩], [], [], 2⟩ =
      Parser.peek_n ⟨[⟨TokenKind.lCurly, ['{'], 0⟩, ⟨TokenKind.ident, ['a'], 1⟩], [], [], 2⟩ 1 :=
  c9_peek_n ⟨[⟨TokenKind.lCurly, ['{'], 0⟩, ⟨TokenKind.ident, ['a'], 1⟩], [], [], 2⟩ 2
    (by decide) (by decide)

/-- C10: `bump` and `pop` require a remaining token: on a non-empty
buffer they remove exactly the next token (`bump` additionally emits its
text to the builder under the caller-chosen kind), and on an empty
buffer both are the unwrap-on-`None` panic, modelled by `none`. -/
theorem c10_bump_pop (p : PState) (k : SyntaxKind) :
    (p.tokens = [] → Parser.bump k p = none ∧ Parser.pop p = none) ∧
    (∀ (t : Token) (ts : List Token), p.tokens = t :: ts →
      Parser.bump k p =
        some { p with tokens := ts, events := p.events ++ [Event.token k t.text] } ∧
      Parser.pop p = some (t, { p with tokens := ts })) := by
  constructor
  · intro h
    constructor <;> simp [Parser.bump, Parser.pop, h]
  · intro t ts h
    constructor <;> simp [Parser.bump, Parser.pop, h]

/-- C10 (witness): the bump/pop contract at a concrete empty state and a
concrete one-token state. -/
theorem c10_bump_pop_witness :
    (Parser.bump IDENT ⟨[], [], [], 0⟩ = none ∧ Parser.pop ⟨[], [], [], 0⟩ = none) ∧
    (Parser.bump IDENT ⟨[⟨TokenKind.ident, ['a'], 0⟩], [], [], 1⟩ =
      some ⟨[], [Event.token IDENT ['a']], [], 1⟩ ∧
     Parser.pop ⟨[⟨TokenKind.ident, ['a'], 0⟩], [], [], 1⟩ =
      some (⟨TokenKind.ident, ['a'], 0⟩, ⟨[], [], [], 1⟩)) :=
  ⟨(c10_bump_pop ⟨[], [], [], 0⟩ IDENT).1 rfl,
   (c10_bump_pop ⟨[⟨TokenKind.ident, ['a'], 0⟩], [], [], 1⟩ IDENT).2
     ⟨TokenKind.ident, ['a'], 0⟩ [] rfl⟩
